import Mathlib

/-!
Shallow embedding of the order/cart transactional core of the
Code-byme/e-commerce Go backend.

Embedded source files:
  - internal/services/order_service.go  (CreateOrder, GetOrder,
    UpdateOrderStatus, CancelOrder)
  - internal/services/cart_service.go   (GetOrCreateCart, AddToCart, GetCart,
    ClearCart, CheckoutCart) and the product service (GetProduct,
    UpdateProduct) that shares that file
  - internal/database/migrations.go     (table schemas: CHECK and UNIQUE
    constraints relevant to the embedded write paths)

Modelling conventions:
  - The database is a record of lists of rows (one list per table) plus the
    next SERIAL value for each id column that the embedded operations insert
    into.  Timestamps are omitted (no claim mentions them).
  - DECIMAL(10,2) monetary values (Go float64) are modelled as integer
    cent counts (Int): every DECIMAL(10,2) value is an exact multiple of
    0.01 and the embedded operations only multiply prices by integer
    quantities and add them, so integer cents follow the spec's
    exact-decimal numeric semantics with no loss.  Go int is Int.
  - Each service method is a function DB -> args -> DB x Except SvcError A.
    A transaction is Except-threaded: any error before commit returns the
    caller's DB unchanged (tx.Rollback), mirroring the deferred rollback in
    the Go code.
  - Schema CHECK constraints that a modelled write can actually violate are
    embedded at the write site (products.stock >= 0, products.price >= 0,
    orders.total_amount >= 0, orders.status enumeration, order_items
    quantity > 0 / price >= 0, cart_items quantity > 0); a violated
    constraint surfaces as the storage error that the Go code wraps and
    returns.  Foreign keys to rows that were looked up earlier in the same
    transaction (order_items.product_id, cart_items.product_id) cannot fail
    on the embedded paths, since no embedded operation deletes rows, and are
    not re-checked; the orders.user_id foreign key is checked because the
    caller-supplied user id is otherwise unconstrained.
  - CancelOrder's stock restoration (UPDATE products ... FROM order_items)
    follows PostgreSQL's UPDATE ... FROM semantics: when the join yields
    several order_items rows for one product row, exactly one of them is
    applied (PostgreSQL leaves which one unspecified; the model fixes the
    first matching row in storage order).  A product row with no matching
    order_items row is not updated at all.
-/

namespace ECom

/-- A row of the products table (internal/models, migrations.go). -/
structure Product where
  id : Nat
  name : String
  description : String
  price : Int
  stock : Int
  categoryId : Nat
  imageUrl : String
  isActive : Bool
deriving Repr, DecidableEq

/-- A row of the orders table. -/
structure Order where
  id : Nat
  userId : Nat
  status : String
  totalAmount : Int
  shippingAddress : String
  paymentMethod : String
deriving Repr, DecidableEq

/-- A row of the order_items table. -/
structure OrderItem where
  id : Nat
  orderId : Nat
  productId : Nat
  quantity : Int
  price : Int
deriving Repr, DecidableEq

/-- A row of the carts table. -/
structure Cart where
  id : Nat
  userId : Nat
deriving Repr, DecidableEq

/-- A row of the cart_items table. -/
structure CartItem where
  id : Nat
  cartId : Nat
  productId : Nat
  quantity : Int
deriving Repr, DecidableEq

/-- The relational store: one list per table (rows in storage order), the
users and categories tables reduced to their id columns (the embedded
operations only ever test existence of those rows), and the next SERIAL
value for each id column written by the embedded operations. -/
structure DB where
  users : List Nat
  categories : List Nat
  products : List Product
  orders : List Order
  orderItems : List OrderItem
  carts : List Cart
  cartItems : List CartItem
  nextOrderId : Nat
  nextOrderItemId : Nat
  nextCartId : Nat
  nextCartItemId : Nat
deriving Repr, DecidableEq

/-- The typed error values carried by the Go error returns of the embedded
services; storage-layer failures (constraint violations) carry the message
context the Go code wraps them with. -/
inductive SvcError where
  | productNotFound (productId : Nat)
  | insufficientStock (name : String) (available requested : Int)
  | orderNotFound
  | alreadyCancelled
  | cannotCancelDelivered
  | cartProductNotFound
  | cartEmpty
  | productMissing
  | categoryNotFound
  | storageError (context : String)
deriving Repr, DecidableEq

instance {ε α : Type} [DecidableEq ε] [DecidableEq α] :
    DecidableEq (Except ε α) := fun x y =>
  match x, y with
  | .error e1, .error e2 =>
    if h : e1 = e2 then .isTrue (by rw [h])
    else .isFalse (by intro hc; cases hc; exact h rfl)
  | .error _, .ok _ => .isFalse (by intro hc; cases hc)
  | .ok _, .error _ => .isFalse (by intro hc; cases hc)
  | .ok a1, .ok a2 =>
    if h : a1 = a2 then .isTrue (by rw [h])
    else .isFalse (by intro hc; cases hc; exact h rfl)

/-- The five order statuses admitted by the orders table CHECK constraint
and by the UpdateOrderStatusRequest binding. -/
def validStatuses : List String :=
  ["pending", "confirmed", "shipped", "delivered", "cancelled"]

/-- One line of a CreateOrder request (order_service.go). -/
structure CreateOrderItemRequest where
  productId : Nat
  quantity : Int
deriving Repr, DecidableEq

/-- A CreateOrder request (order_service.go). -/
structure CreateOrderRequest where
  shippingAddress : String
  paymentMethod : String
  items : List CreateOrderItemRequest
deriving Repr, DecidableEq

/-- SELECT id, name, price, stock FROM products WHERE id = $1 AND
is_active = true  (QueryRow: first matching row). -/
def findActiveProduct (db : DB) (pid : Nat) : Option Product :=
  db.products.find? (fun p => p.id == pid && p.isActive)

/-- The line drafts accumulated by CreateOrder's validation loop
(models.OrderItem values before insertion assigns ids). -/
structure OrderItemDraft where
  productId : Nat
  quantity : Int
  price : Int
deriving Repr, DecidableEq

/-- CreateOrder's first loop (order_service.go lines 74-106): per line,
look up the active product, reject on absence or insufficient stock,
otherwise snapshot the product's current price and accumulate the total. -/
def validateItems (db : DB) : List CreateOrderItemRequest →
    Except SvcError (Int × List OrderItemDraft)
  | [] => .ok (0, [])
  | it :: rest =>
    match findActiveProduct db it.productId with
    | none => .error (.productNotFound it.productId)
    | some p =>
      if p.stock < it.quantity then
        .error (.insufficientStock p.name p.stock it.quantity)
      else
        match validateItems db rest with
        | .error e => .error e
        | .ok (t, ds) =>
          .ok (p.price * it.quantity + t, ⟨it.productId, it.quantity, p.price⟩ :: ds)

/-- UPDATE products SET stock = stock - $1 WHERE id = $2, subject to the
products table constraint CHECK (stock >= 0) (migrations.go line 104):
the statement fails if any updated row would violate the constraint. -/
def decrementStockChecked (ps : List Product) (pid : Nat) (qty : Int) :
    Option (List Product) :=
  if ps.all (fun p => !(p.id == pid) || decide (0 ≤ p.stock - qty)) then
    some (ps.map (fun p => if p.id == pid then { p with stock := p.stock - qty } else p))
  else
    none

/-- INSERT INTO orders (order_service.go lines 110-122), subject to the
orders.user_id foreign key, CHECK (total_amount >= 0) and the status CHECK
(all from migrations.go); the inserted status is always "pending". -/
def insertOrderChecked (db : DB) (userId : Nat) (total : Int)
    (addr pm : String) : Option (DB × Order) :=
  if db.users.contains userId && decide (0 ≤ total) then
    let o : Order := ⟨db.nextOrderId, userId, "pending", total, addr, pm⟩
    some ({ db with orders := db.orders ++ [o], nextOrderId := db.nextOrderId + 1 }, o)
  else
    none

/-- CreateOrder's second loop (order_service.go lines 128-145): per draft,
insert the order_items row (subject to its quantity/price CHECKs) and
decrement the product's stock (subject to the stock CHECK). -/
def applyOrderItems (oid : Nat) : List OrderItemDraft → DB → Except SvcError DB
  | [], db => .ok db
  | d :: rest, db =>
    if decide (0 < d.quantity) && decide (0 ≤ d.price) then
      let row : OrderItem := ⟨db.nextOrderItemId, oid, d.productId, d.quantity, d.price⟩
      let db1 := { db with
        orderItems := db.orderItems ++ [row],
        nextOrderItemId := db.nextOrderItemId + 1 }
      match decrementStockChecked db1.products d.productId d.quantity with
      | none => .error (.storageError "failed to update product stock")
      | some ps => applyOrderItems oid rest { db1 with products := ps }
    else
      .error (.storageError "failed to create order item")

/-- GetOrder (order_service.go lines 157-216): the order row joined with
its user (an inner join, so a missing user surfaces as not found), plus the
order's items joined with their products (inner join). -/
def GetOrder (db : DB) (id : Nat) : Except SvcError (Order × List OrderItem) :=
  match db.orders.find? (fun o => o.id == id) with
  | none => .error .orderNotFound
  | some o =>
    if db.users.contains o.userId then
      .ok (o, db.orderItems.filter
        (fun oi => oi.orderId == id && db.products.any (fun p => p.id == oi.productId)))
    else
      .error .orderNotFound

/-- The body of CreateOrder's transaction: validation loop, order insert,
item-insert/stock-decrement loop. -/
def CreateOrderTx (db : DB) (userId : Nat) (req : CreateOrderRequest) :
    Except SvcError (DB × Order) :=
  match validateItems db req.items with
  | .error e => .error e
  | .ok (total, drafts) =>
    match insertOrderChecked db userId total req.shippingAddress req.paymentMethod with
    | none => .error (.storageError "failed to create order")
    | some (db1, o) =>
      match applyOrderItems o.id drafts db1 with
      | .error e => .error e
      | .ok db2 => .ok (db2, o)

/-- CreateOrder (order_service.go lines 62-154): the transaction body runs
against the caller's state; any error rolls the transaction back (the
caller's state is returned unchanged); on commit the hydrated order is
re-read with GetOrder. -/
def CreateOrder (db : DB) (userId : Nat) (req : CreateOrderRequest) :
    DB × Except SvcError (Order × List OrderItem) :=
  match CreateOrderTx db userId req with
  | .error e => (db, .error e)
  | .ok (db2, o) =>
    match GetOrder db2 o.id with
    | .error e => (db2, .error e)
    | .ok v => (db2, .ok v)

/-- UpdateOrderStatus request (order_service.go line 38; the gin binding
restricts the field to the five valid statuses). -/
structure UpdateOrderStatusRequest where
  status : String
deriving Repr, DecidableEq

/-- UpdateOrderStatus (order_service.go lines 219-237): existence check via
GetOrder, then an unconditional UPDATE of the status column (subject to the
orders status CHECK constraint), then a re-read. -/
def UpdateOrderStatus (db : DB) (id : Nat) (req : UpdateOrderStatusRequest) :
    DB × Except SvcError (Order × List OrderItem) :=
  match GetOrder db id with
  | .error e => (db, .error e)
  | .ok _ =>
    if validStatuses.contains req.status then
      let db1 := { db with
        orders := db.orders.map (fun o => if o.id == id then { o with status := req.status } else o) }
      match GetOrder db1 id with
      | .error e => (db1, .error e)
      | .ok v => (db1, .ok v)
    else
      (db, .error (.storageError "failed to update order status"))

/-- The quantity CancelOrder's restore applies to one product row: in
PostgreSQL's UPDATE ... FROM, a target row joined by several order_items
rows is updated by exactly one of them (which one is unspecified; the
model fixes the first matching row in storage order), and a row with no
matching order_items row is not updated (quantity 0 here). -/
def releaseQty (ois : List OrderItem) (oid pid : Nat) : Int :=
  match ois.find? (fun oi => oi.orderId == oid && oi.productId == pid) with
  | some oi => oi.quantity
  | none => 0

/-- CancelOrder's stock restoration (order_service.go lines 396-401):
UPDATE products SET stock = stock + oi.quantity FROM order_items oi WHERE
oi.order_id = $1 AND oi.product_id = products.id, subject to the stock
CHECK constraint; each joined product row is updated once, by one matching
order_items row's quantity, and unjoined rows are untouched. -/
def restoreStockChecked (ps : List Product) (ois : List OrderItem) (oid : Nat) :
    Option (List Product) :=
  if ps.all (fun p => decide (0 ≤ p.stock + releaseQty ois oid p.id)) then
    some (ps.map (fun p => { p with stock := p.stock + releaseQty ois oid p.id }))
  else
    none

/-- CancelOrder (order_service.go lines 359-412): read the order row,
reject absent / already-cancelled / delivered, otherwise set the status to
cancelled and restore stock for every line, all in one transaction. -/
def CancelOrder (db : DB) (id : Nat) : DB × Except SvcError Unit :=
  match db.orders.find? (fun o => o.id == id) with
  | none => (db, .error .orderNotFound)
  | some o =>
    if o.status == "cancelled" then
      (db, .error .alreadyCancelled)
    else if o.status == "delivered" then
      (db, .error .cannotCancelDelivered)
    else
      match restoreStockChecked db.products db.orderItems id with
      | none => (db, .error (.storageError "failed to restore product stock"))
      | some ps =>
        ({ db with
            orders := db.orders.map
              (fun o2 => if o2.id == id then { o2 with status := "cancelled" } else o2),
            products := ps }, .ok ())

/-- An AddToCart request (cart_service.go lines 25-28). -/
structure AddToCartRequest where
  productId : Nat
  quantity : Int
deriving Repr, DecidableEq

/-- GetOrCreateCart (cart_service.go lines 36-61): the user's cart row,
inserted first if absent.  Runs on the service's plain connection, not on
any enclosing transaction, so its insert survives a later rollback. -/
def GetOrCreateCart (db : DB) (userId : Nat) : DB × Cart :=
  match db.carts.find? (fun c => c.userId == userId) with
  | some c => (db, c)
  | none =>
    let c : Cart := ⟨db.nextCartId, userId⟩
    ({ db with carts := db.carts ++ [c], nextCartId := db.nextCartId + 1 }, c)

/-- One row of the cart view: a cart_items row joined with its product
(models.CartItem with its hydrated Product). -/
structure CartViewItem where
  item : CartItem
  product : Product
deriving Repr, DecidableEq

/-- models.CartResponse: the cart view with derived totals. -/
structure CartResponse where
  id : Nat
  userId : Nat
  items : List CartViewItem
  totalItems : Int
  totalAmount : Int
deriving Repr, DecidableEq

/-- GetCart (cart_service.go lines 151-209): the cart's items inner-joined
with their products, with totalItems the summed quantity and totalAmount
the sum of quantity times current product price. -/
def GetCart (db : DB) (userId : Nat) : DB × CartResponse :=
  let (db1, cart) := GetOrCreateCart db userId
  let items := db1.cartItems.filterMap (fun ci =>
    if ci.cartId == cart.id then
      (db1.products.find? (fun p => p.id == ci.productId)).map (fun p => ⟨ci, p⟩)
    else
      none)
  (db1, { id := cart.id, userId := cart.userId, items := items,
          totalItems := (items.map (fun i => i.item.quantity)).sum,
          totalAmount := (items.map (fun i => i.product.price * i.item.quantity)).sum })

/-- AddToCart (cart_service.go lines 64-148).  GetOrCreateCart runs outside
the transaction (its cart insert persists even when the add fails); the
product must exist and be active; if a cart_items row for the product
already exists its quantity becomes existing + requested, otherwise a new
row is inserted; either write requires the combined quantity not to exceed
the product's current stock, and is subject to the cart_items
CHECK (quantity > 0).  On success the updated cart view is returned. -/
def AddToCart (db : DB) (userId : Nat) (req : AddToCartRequest) :
    DB × Except SvcError CartResponse :=
  let (db1, cart) := GetOrCreateCart db userId
  match findActiveProduct db1 req.productId with
  | none => (db1, .error .cartProductNotFound)
  | some p =>
    match db1.cartItems.find? (fun ci => ci.cartId == cart.id && ci.productId == req.productId) with
    | none =>
      if p.stock < req.quantity then
        (db1, .error (.insufficientStock p.name p.stock req.quantity))
      else if decide (0 < req.quantity) then
        let row : CartItem := ⟨db1.nextCartItemId, cart.id, req.productId, req.quantity⟩
        let db2 := { db1 with
          cartItems := db1.cartItems ++ [row],
          nextCartItemId := db1.nextCartItemId + 1 }
        ((GetCart db2 userId).1, .ok (GetCart db2 userId).2)
      else
        (db1, .error (.storageError "failed to add item to cart"))
    | some existing =>
      let newQuantity := existing.quantity + req.quantity
      if p.stock < newQuantity then
        (db1, .error (.insufficientStock p.name p.stock newQuantity))
      else if decide (0 < newQuantity) then
        let db2 := { db1 with
          cartItems := db1.cartItems.map
            (fun ci => if ci.id == existing.id then { ci with quantity := newQuantity } else ci) }
        ((GetCart db2 userId).1, .ok (GetCart db2 userId).2)
      else
        (db1, .error (.storageError "failed to update cart item"))

/-- ClearCart (cart_service.go lines 328-348): delete every cart_items row
of the user's cart (creating the cart first if absent). -/
def ClearCart (db : DB) (userId : Nat) : DB :=
  let (db1, cart) := GetOrCreateCart db userId
  { db1 with cartItems := db1.cartItems.filter (fun ci => !(ci.cartId == cart.id)) }

/-- CheckoutCart (cart_service.go lines 351-394): load the cart view, fail
on an empty cart, otherwise convert each cart line to an order line and
delegate to CreateOrder; on success clear the cart.  The clearOk flag
models whether the cart-clearing storage calls succeed: the Go code only
logs a clear failure and still returns the created order. -/
def CheckoutCart (db : DB) (userId : Nat) (addr pm : String) (clearOk : Bool) :
    DB × Except SvcError (Order × List OrderItem) :=
  let (db1, cart) := GetCart db userId
  if cart.items.isEmpty then
    (db1, .error .cartEmpty)
  else
    let req : CreateOrderRequest :=
      ⟨addr, pm, cart.items.map (fun i => ⟨i.item.productId, i.item.quantity⟩)⟩
    match CreateOrder db1 userId req with
    | (db2, .error e) => (db2, .error e)
    | (db2, .ok v) =>
      ((if clearOk then ClearCart db2 userId else db2), .ok v)

/-- An UpdateProduct request (product service, cart_service.go source file
lines 430-438): every field optional, only provided fields are written. -/
structure UpdateProductRequest where
  name : Option String
  description : Option String
  price : Option Int
  stock : Option Int
  categoryId : Option Nat
  imageUrl : Option String
  isActive : Option Bool
deriving Repr, DecidableEq

/-- The empty UpdateProduct request (no field provided). -/
def UpdateProductRequest.none : UpdateProductRequest :=
  ⟨Option.none, Option.none, Option.none, Option.none, Option.none, Option.none, Option.none⟩

/-- GetProduct (product service): the product row by id, with no active
filter; the category hydration join does not affect any embedded field and
is omitted. -/
def GetProduct (db : DB) (id : Nat) : Except SvcError Product :=
  match db.products.find? (fun p => p.id == id) with
  | none => .error .productMissing
  | some p => .ok p

/-- The row produced by UpdateProduct's dynamic SET clause: each provided
field overwrites the stored one. -/
def applyProductUpdates (p : Product) (req : UpdateProductRequest) : Product :=
  { p with
    name := req.name.getD p.name,
    description := req.description.getD p.description,
    price := req.price.getD p.price,
    stock := req.stock.getD p.stock,
    categoryId := req.categoryId.getD p.categoryId,
    imageUrl := req.imageUrl.getD p.imageUrl,
    isActive := req.isActive.getD p.isActive }

/-- Whether the request provides at least one field (the Go code returns
the existing product without writing when the update list is empty). -/
def UpdateProductRequest.hasUpdates (req : UpdateProductRequest) : Bool :=
  req.name.isSome || req.description.isSome || req.price.isSome || req.stock.isSome ||
    req.categoryId.isSome || req.imageUrl.isSome || req.isActive.isSome

/-- UpdateProduct's category existence check: only performed when a
positive category id is provided. -/
def categoryOkFor (db : DB) (req : UpdateProductRequest) : Bool :=
  match req.categoryId with
  | some cid => if 0 < cid then db.categories.contains cid else true
  | Option.none => true

/-- UpdateProduct (product service, lines 526-613 of the cart_service.go
source file): existence check, category existence check when a positive
category id is provided, then a single UPDATE of the products row built
from the provided fields, subject to the products price/stock CHECK
constraints. -/
def UpdateProduct (db : DB) (id : Nat) (req : UpdateProductRequest) :
    DB × Except SvcError Product :=
  match GetProduct db id with
  | .error e => (db, .error e)
  | .ok existing =>
    if !categoryOkFor db req then
      (db, .error .categoryNotFound)
    else if !req.hasUpdates then
      (db, .ok existing)
    else if db.products.all (fun p => !(p.id == id) ||
        (decide (0 ≤ (applyProductUpdates p req).price) &&
         decide (0 ≤ (applyProductUpdates p req).stock))) then
      ({ db with products := db.products.map (fun p => if p.id == id then applyProductUpdates p req else p) },
       .ok (applyProductUpdates existing req))
    else
      (db, .error (.storageError "failed to update product"))

/-!  Specification helpers: definitions used only to state the theorems
below (per-line validation outcome, per-product requested totals, price
snapshots) and the data invariants guaranteed by the table schemas. -/

/-- The validation outcome of one request line against a store, exactly as
CreateOrder's validation loop decides it: the product-not-found rejection
when no active product carries the id, the insufficient-stock rejection
when the stock is below the requested quantity, none otherwise. -/
def lineError (db : DB) (it : CreateOrderItemRequest) : Option SvcError :=
  match findActiveProduct db it.productId with
  | none => some (.productNotFound it.productId)
  | some p =>
    if p.stock < it.quantity then
      some (.insufficientStock p.name p.stock it.quantity)
    else
      none

/-- The rejection of the first request line that fails validation. -/
def firstLineError (db : DB) : List CreateOrderItemRequest → Option SvcError
  | [] => none
  | it :: rest =>
    match lineError db it with
    | some e => some e
    | none => firstLineError db rest

/-- The total quantity a request's lines ask for a given product. -/
def requestedTotal (items : List CreateOrderItemRequest) (pid : Nat) : Int :=
  ((items.filter (fun it => it.productId == pid)).map (fun it => it.quantity)).sum

/-- The price of the active product carrying the given id (0 if absent). -/
def priceOf (db : DB) (pid : Nat) : Int :=
  ((findActiveProduct db pid).map (fun p => p.price)).getD 0

/-- The total quantity a list of validated line drafts asks for a given
product. -/
def draftTotal (ds : List OrderItemDraft) (pid : Nat) : Int :=
  ((ds.filter (fun d => d.productId == pid)).map (fun d => d.quantity)).sum

/-- Schema invariants of the products table: primary-key ids, and the
price/stock CHECK constraints on every stored row. -/
def ProductsInv (db : DB) : Prop :=
  (db.products.map (fun p => p.id)).Nodup ∧
    ∀ p ∈ db.products, 0 ≤ p.stock ∧ 0 ≤ p.price

/-- Schema invariants of the orders table: primary-key ids below the next
SERIAL value, the status CHECK constraint, and the users foreign key. -/
def OrdersInv (db : DB) : Prop :=
  (db.orders.map (fun o => o.id)).Nodup ∧
    ∀ o ∈ db.orders, o.id < db.nextOrderId ∧
      o.status ∈ validStatuses ∧ o.userId ∈ db.users

/-- Schema invariants of the order_items table: the orders foreign key only
ever references issued ids, and the quantity/price CHECK constraints. -/
def OrderItemsInv (db : DB) : Prop :=
  ∀ oi ∈ db.orderItems, oi.orderId < db.nextOrderId ∧
    0 < oi.quantity ∧ 0 ≤ oi.price

/-- Schema invariants of the carts table: UNIQUE(user_id), primary-key ids
below the next SERIAL value. -/
def CartsInv (db : DB) : Prop :=
  (db.carts.map (fun c => c.userId)).Nodup ∧
    (db.carts.map (fun c => c.id)).Nodup ∧
    ∀ c ∈ db.carts, c.id < db.nextCartId

/-- Schema invariants of the cart_items table: UNIQUE(cart_id, product_id),
primary-key ids below the next SERIAL value, quantity CHECK constraint. -/
def CartItemsInv (db : DB) : Prop :=
  (db.cartItems.map (fun ci => (ci.cartId, ci.productId))).Nodup ∧
    (db.cartItems.map (fun ci => ci.id)).Nodup ∧
    ∀ ci ∈ db.cartItems, 0 < ci.quantity ∧ ci.id < db.nextCartItemId

/-- All schema invariants together. -/
def DBInv (db : DB) : Prop :=
  ProductsInv db ∧ OrdersInv db ∧ OrderItemsInv db ∧ CartsInv db ∧ CartItemsInv db

instance (db : DB) : Decidable (ProductsInv db) := by unfold ProductsInv; infer_instance
instance (db : DB) : Decidable (OrdersInv db) := by unfold OrdersInv; infer_instance
instance (db : DB) : Decidable (OrderItemsInv db) := by unfold OrderItemsInv; infer_instance
instance (db : DB) : Decidable (CartsInv db) := by unfold CartsInv; infer_instance
instance (db : DB) : Decidable (CartItemsInv db) := by unfold CartItemsInv; infer_instance
instance (db : DB) : Decidable (DBInv db) := by unfold DBInv; infer_instance

/-!  Concrete stores used to instantiate the theorems below. -/

/-- A one-product catalog: product 1 "Widget" at price 10, stock 5, active;
one user (id 1); empty cart and order tables. -/
def sampleDB : DB :=
  { users := [1], categories := [1],
    products := [⟨1, "Widget", "", 10, 5, 1, "", true⟩],
    orders := [], orderItems := [], carts := [], cartItems := [],
    nextOrderId := 1, nextOrderItemId := 1, nextCartId := 1, nextCartItemId := 1 }

/-- The catalog after user 1 ordered 2 Widgets from stock 5: a pending
order (id 1, total 20) with one line, stock down to 3. -/
def sampleOrderDB : DB :=
  { users := [1], categories := [1],
    products := [⟨1, "Widget", "", 10, 3, 1, "", true⟩],
    orders := [⟨1, 1, "pending", 20, "a", "cash"⟩],
    orderItems := [⟨1, 1, 1, 2, 10⟩],
    carts := [], cartItems := [],
    nextOrderId := 2, nextOrderItemId := 2, nextCartId := 1, nextCartItemId := 1 }

/-- The one-product catalog with stock 6: enough for a duplicate-line
order of 3 + 3 Widgets. -/
def dupLineDB : DB :=
  { users := [1], categories := [1],
    products := [⟨1, "Widget", "", 10, 6, 1, "", true⟩],
    orders := [], orderItems := [], carts := [], cartItems := [],
    nextOrderId := 1, nextOrderItemId := 1, nextCartId := 1, nextCartItemId := 1 }

/-- A store in which pending order 1 holds two order_items rows for
product 1 (quantities 3 and 2), with stock 0 after their reservation. -/
def dupOrderDB : DB :=
  { users := [1], categories := [1],
    products := [⟨1, "Widget", "", 10, 0, 1, "", true⟩],
    orders := [⟨1, 1, "pending", 50, "a", "cash"⟩],
    orderItems := [⟨1, 1, 1, 3, 10⟩, ⟨2, 1, 1, 2, 10⟩],
    carts := [], cartItems := [],
    nextOrderId := 2, nextOrderItemId := 3, nextCartId := 1, nextCartItemId := 1 }

/-- The one-product catalog with user 1 owning cart 1 that already holds
2 units of product 1. -/
def sampleCartDB : DB :=
  { users := [1], categories := [1],
    products := [⟨1, "Widget", "", 10, 5, 1, "", true⟩],
    orders := [], orderItems := [],
    carts := [⟨1, 1⟩], cartItems := [⟨1, 1, 1, 2⟩],
    nextOrderId := 1, nextOrderItemId := 1, nextCartId := 2, nextCartItemId := 2 }

/-!  Generic list lemmas used throughout. -/

/-- A find? scan returns the sole matching element. -/
theorem find?_eq_some_unique {α : Type} {pr : α → Bool} {l : List α} {a : α}
    (ha : a ∈ l) (hpa : pr a = true) (huniq : ∀ b ∈ l, pr b = true → b = a) :
    l.find? pr = some a := by
  induction l with
  | nil => cases ha
  | cons b t ih =>
    by_cases hb : pr b = true
    · have hba : b = a := huniq b (List.mem_cons_self b t) hb
      subst hba
      exact List.find?_cons_of_pos _ hb
    · have hb' : pr b = false := Bool.eq_false_iff.mpr hb
      have hba : b ≠ a := fun h => hb (h ▸ hpa)
      have hat : a ∈ t := by
        rcases List.mem_cons.mp ha with h | h
        · exact absurd h.symm hba
        · exact h
      rw [List.find?_cons_of_neg _ hb]
      exact ih hat (fun b2 hb2 hp2 => huniq b2 (List.mem_cons_of_mem _ hb2) hp2)

/-- A filter over a duplicate-free list keeps exactly its sole matching
element. -/
theorem filter_eq_single_unique {α : Type} {pr : α → Bool} {l : List α} {a : α}
    (hnd : l.Nodup) (ha : a ∈ l) (hpa : pr a = true)
    (huniq : ∀ b ∈ l, pr b = true → b = a) :
    l.filter pr = [a] := by
  induction l with
  | nil => cases ha
  | cons b t ih =>
    rcases List.nodup_cons.mp hnd with ⟨hbt, hndt⟩
    by_cases hba : b = a
    · subst hba
      rw [List.filter_cons_of_pos hpa]
      have : t.filter pr = [] := by
        rw [List.filter_eq_nil_iff]
        intro x hx hpx
        exact hbt ((huniq x (List.mem_cons_of_mem _ hx) hpx) ▸ hx)
      rw [this]
    · have hpb : pr b = false := by
        cases hpb : pr b with
        | false => rfl
        | true => exact absurd (huniq b (List.mem_cons_self b t) hpb) hba
      have hat : a ∈ t := by
        rcases List.mem_cons.mp ha with h | h
        · exact absurd h.symm hba
        · exact h
      rw [List.filter_cons_of_neg (by simp [hpb])]
      exact ih hndt hat (fun b2 hb2 hp2 => huniq b2 (List.mem_cons_of_mem _ hb2) hp2)

/-- A sum of pointwise nonnegative integer values is nonnegative. -/
theorem sum_map_nonneg {α : Type} {l : List α} {f : α → Int}
    (h : ∀ x ∈ l, 0 ≤ f x) : 0 ≤ (l.map f).sum := by
  refine List.sum_nonneg ?_
  intro x hx
  rcases List.mem_map.mp hx with ⟨a, haa, rfl⟩
  exact h a haa

/-!  Validation-phase lemmas (CreateOrder's first loop). -/

/-- The rejection shape of a failed line: product-not-found or
insufficient-stock, exactly the two Reserve rejection kinds. -/
theorem lineError_shape {db : DB} {it : CreateOrderItemRequest} {e : SvcError}
    (h : lineError db it = some e) :
    (∃ pid, e = .productNotFound pid) ∨
      ∃ n a r, e = .insufficientStock n a r := by
  cases hfp : findActiveProduct db it.productId with
  | none =>
    simp only [lineError, hfp, Option.some.injEq] at h
    exact Or.inl ⟨it.productId, h.symm⟩
  | some p =>
    simp only [lineError, hfp] at h
    by_cases hs : p.stock < it.quantity
    · rw [if_pos hs] at h
      exact Or.inr ⟨p.name, p.stock, it.quantity, (Option.some.injEq _ _ ▸ h).symm⟩
    · rw [if_neg hs] at h
      cases h

/-- If some line fails validation then the scan of the list yields a first
failing line, and its rejection is one of the lines' rejections. -/
theorem firstLineError_of_exists {db : DB} {items : List CreateOrderItemRequest}
    (h : ∃ it ∈ items, (lineError db it).isSome) :
    ∃ e, firstLineError db items = some e ∧ ∃ it ∈ items, lineError db it = some e := by
  induction items with
  | nil => rcases h with ⟨it, hmem, _⟩; cases hmem
  | cons it0 rest ih =>
    cases hle : lineError db it0 with
    | some e =>
      exact ⟨e, by simp [firstLineError, hle], it0, List.mem_cons_self _ _, hle⟩
    | none =>
      rcases h with ⟨it, hmem, hsome⟩
      rcases List.mem_cons.mp hmem with rfl | hmem'
      · rw [hle] at hsome; cases hsome
      · rcases ih ⟨it, hmem', hsome⟩ with ⟨e, h1, it2, h2, h3⟩
        exact ⟨e, by simp [firstLineError, hle, h1], it2, List.mem_cons_of_mem _ h2, h3⟩

/-- The validation loop fails with exactly the first failing line's
rejection. -/
theorem validateItems_error {db : DB} {items : List CreateOrderItemRequest} {e : SvcError}
    (h : firstLineError db items = some e) :
    validateItems db items = .error e := by
  induction items with
  | nil => cases h
  | cons it0 rest ih =>
    cases hfp : findActiveProduct db it0.productId with
    | none =>
      have hle : lineError db it0 = some (.productNotFound it0.productId) := by
        simp [lineError, hfp]
      simp only [firstLineError, hle, Option.some.injEq] at h
      subst h
      simp [validateItems, hfp]
    | some p =>
      by_cases hs : p.stock < it0.quantity
      · have hle : lineError db it0 = some (.insufficientStock p.name p.stock it0.quantity) := by
          simp [lineError, hfp, hs]
        simp only [firstLineError, hle, Option.some.injEq] at h
        subst h
        simp [validateItems, hfp, hs]
      · have hle : lineError db it0 = none := by
          simp [lineError, hfp, hs]
        simp only [firstLineError, hle] at h
        simp [validateItems, hfp, hs, ih h]

/-- The rollback of a validation failure: CreateOrder returns the caller's
state unchanged together with the first failing line's rejection. -/
theorem CreateOrder_error_of_firstLineError {db : DB} {uid : Nat}
    {req : CreateOrderRequest} {e : SvcError}
    (h : firstLineError db req.items = some e) :
    CreateOrder db uid req = (db, .error e) := by
  simp [CreateOrder, CreateOrderTx, validateItems_error h]

/-!  Success-path lemmas for CreateOrder. -/

/-- Splitting a draft total over its head line. -/
theorem draftTotal_cons (d : OrderItemDraft) (ds : List OrderItemDraft) (pid : Nat) :
    draftTotal (d :: ds) pid =
      (if d.productId = pid then d.quantity else 0) + draftTotal ds pid := by
  by_cases h : d.productId = pid
  · simp [draftTotal, List.filter_cons, h]
  · simp [draftTotal, List.filter_cons, h]

/-- Draft totals over positive-quantity drafts are nonnegative. -/
theorem draftTotal_nonneg {ds : List OrderItemDraft} {pid : Nat}
    (hq : ∀ d ∈ ds, 0 < d.quantity) : 0 ≤ draftTotal ds pid :=
  sum_map_nonneg (fun d hd => le_of_lt (hq d (List.mem_of_mem_filter hd)))

/-- Splitting a requested total over its head line. -/
theorem requestedTotal_cons (it : CreateOrderItemRequest)
    (items : List CreateOrderItemRequest) (pid : Nat) :
    requestedTotal (it :: items) pid =
      (if it.productId = pid then it.quantity else 0) + requestedTotal items pid := by
  by_cases h : it.productId = pid
  · simp [requestedTotal, List.filter_cons, h]
  · simp [requestedTotal, List.filter_cons, h]

/-- Requested totals over positive-quantity lines are nonnegative. -/
theorem requestedTotal_nonneg {items : List CreateOrderItemRequest} {pid : Nat}
    (hq : ∀ it ∈ items, 0 < it.quantity) : 0 ≤ requestedTotal items pid :=
  sum_map_nonneg (fun it hit => le_of_lt (hq it (List.mem_of_mem_filter hit)))

/-- A line's own quantity is at most the requested total of its product. -/
theorem le_requestedTotal {items : List CreateOrderItemRequest}
    {it : CreateOrderItemRequest} (hq : ∀ i ∈ items, 0 < i.quantity)
    (hmem : it ∈ items) : it.quantity ≤ requestedTotal items it.productId := by
  induction items with
  | nil => cases hmem
  | cons it0 rest ih =>
    rw [requestedTotal_cons]
    rcases List.mem_cons.mp hmem with rfl | hmem'
    · have h0 : 0 ≤ requestedTotal rest it.productId :=
        requestedTotal_nonneg (fun i hi => hq i (List.mem_cons_of_mem _ hi))
      simp only [if_pos rfl, eq_self_iff_true, if_true]
      omega
    · have h1 := ih (fun i hi => hq i (List.mem_cons_of_mem _ hi)) hmem'
      by_cases he : it0.productId = it.productId
      · have h2 : 0 < it0.quantity := hq it0 (List.mem_cons_self _ _)
        rw [if_pos he]; omega
      · rw [if_neg he]; omega

/-- A product no line mentions has requested total zero. -/
theorem requestedTotal_eq_zero {items : List CreateOrderItemRequest} {pid : Nat}
    (h : ∀ it ∈ items, it.productId ≠ pid) : requestedTotal items pid = 0 := by
  have : items.filter (fun it => it.productId == pid) = [] := by
    rw [List.filter_eq_nil_iff]
    intro it hit
    simp [h it hit]
  simp [requestedTotal, this]

/-- Lines drawn from a duplicate-free product list request exactly their
own quantity in total. -/
theorem requestedTotal_of_nodup {items : List CreateOrderItemRequest}
    {it : CreateOrderItemRequest}
    (hnd : (items.map (fun i => i.productId)).Nodup) (hmem : it ∈ items) :
    requestedTotal items it.productId = it.quantity := by
  induction items with
  | nil => cases hmem
  | cons it0 rest ih =>
    rw [List.map_cons, List.nodup_cons] at hnd
    rw [requestedTotal_cons]
    rcases List.mem_cons.mp hmem with rfl | hmem'
    · rw [if_pos rfl, requestedTotal_eq_zero, add_zero]
      intro i hi hie
      exact hnd.1 (hie ▸ List.mem_map_of_mem (fun i => i.productId) hi)
    · rw [ih hnd.2 hmem']
      have : it0.productId ≠ it.productId := by
        intro hcontra
        exact hnd.1 (hcontra ▸ List.mem_map_of_mem (fun i => i.productId) hmem')
      rw [if_neg this, zero_add]

/-- The validation loop succeeds on lines whose active products each cover
the line's own quantity, snapshotting current prices and summing their
line totals. -/
theorem validateItems_ok {db : DB} {items : List CreateOrderItemRequest}
    (h : ∀ it ∈ items, ∃ p, findActiveProduct db it.productId = some p ∧
      it.quantity ≤ p.stock) :
    validateItems db items =
      .ok ((items.map (fun it => priceOf db it.productId * it.quantity)).sum,
        items.map (fun it =>
          ⟨it.productId, it.quantity, priceOf db it.productId⟩)) := by
  induction items with
  | nil => simp [validateItems]
  | cons it0 rest ih =>
    rcases h it0 (List.mem_cons_self _ _) with ⟨p, hfp, hle⟩
    have hs : ¬ p.stock < it0.quantity := not_lt.mpr hle
    have hrest := ih (fun it hit => h it (List.mem_cons_of_mem _ hit))
    have hpr : priceOf db it0.productId = p.price := by simp [priceOf, hfp]
    simp [validateItems, hfp, hs, hrest, hpr]

/-- The conditional stock decrement succeeds when every targeted row can
cover the quantity. -/
theorem decrementStockChecked_eq_some {ps : List Product} {pid : Nat} {qty : Int}
    (h : ∀ p ∈ ps, p.id = pid → 0 ≤ p.stock - qty) :
    decrementStockChecked ps pid qty =
      some (ps.map (fun p => if p.id == pid then { p with stock := p.stock - qty } else p)) := by
  unfold decrementStockChecked
  rw [if_pos]
  rw [List.all_eq_true]
  intro p hp
  by_cases he : p.id = pid
  · simp [he, h p hp he]
  · simp [he]

/-- One iteration of CreateOrder's insert loop: on a passing stock CHECK
the loop inserts the order_items row, decrements stock, and continues. -/
theorem applyOrderItems_cons {oid : Nat} {d : OrderItemDraft}
    {rest : List OrderItemDraft} {db : DB} {ps : List Product}
    (hq : 0 < d.quantity) (hp : 0 ≤ d.price)
    (hdec : decrementStockChecked db.products d.productId d.quantity = some ps) :
    applyOrderItems oid (d :: rest) db =
      applyOrderItems oid rest { db with
        orderItems := db.orderItems ++
          [⟨db.nextOrderItemId, oid, d.productId, d.quantity, d.price⟩],
        nextOrderItemId := db.nextOrderItemId + 1,
        products := ps } := by
  have hcond : (decide (0 < d.quantity) && decide (0 ≤ d.price)) = true := by
    simp [hq, hp]
  simp only [applyOrderItems, hcond, if_true]
  rw [hdec]

/-- CreateOrder's insert loop, run over drafts whose per-product totals the
current stocks cover: it appends one order_items row per draft (ids issued
in sequence) and decrements every product's stock by the drafts' total for
it. -/
theorem applyOrderItems_ok {oid : Nat} :
    ∀ (drafts : List OrderItemDraft) (db : DB),
      (∀ d ∈ drafts, 0 < d.quantity ∧ 0 ≤ d.price) →
      (∀ p ∈ db.products, draftTotal drafts p.id ≤ p.stock) →
      ∃ rows : List OrderItem,
        applyOrderItems oid drafts db = .ok { db with
          products := db.products.map
            (fun p => { p with stock := p.stock - draftTotal drafts p.id }),
          orderItems := db.orderItems ++ rows,
          nextOrderItemId := db.nextOrderItemId + rows.length } ∧
        rows.map (fun r => (r.orderId, r.productId, r.quantity, r.price)) =
          drafts.map (fun d => (oid, d.productId, d.quantity, d.price)) := by
  intro drafts
  induction drafts with
  | nil =>
    intro db _ _
    refine ⟨[], ?_, rfl⟩
    have h1 : ∀ p : Product, ({ p with stock := p.stock - draftTotal [] p.id }) = p := by
      intro p
      have h0 : draftTotal [] p.id = 0 := rfl
      simp [h0]
    simp [applyOrderItems, h1]
  | cons d rest ih =>
    intro db hq hstock
    obtain ⟨hdq, hdp⟩ := hq d (List.mem_cons_self _ _)
    have hq2 := fun d2 hd2 => hq d2 (List.mem_cons_of_mem _ hd2)
    have hrest0 : ∀ pid, 0 ≤ draftTotal rest pid :=
      fun pid => draftTotal_nonneg (fun x hx => (hq2 x hx).1)
    have hdec0 : ∀ p ∈ db.products, p.id = d.productId → 0 ≤ p.stock - d.quantity := by
      intro p hp he
      have h1 := hstock p hp
      rw [draftTotal_cons, if_pos he.symm] at h1
      have h2 := hrest0 p.id
      omega
    have hdec := decrementStockChecked_eq_some hdec0
    have hstep := @applyOrderItems_cons oid d rest db _ hdq hdp hdec
    have hstock2 : ∀ p2 ∈ (db.products.map (fun p =>
        if p.id == d.productId then { p with stock := p.stock - d.quantity } else p)),
        draftTotal rest p2.id ≤ p2.stock := by
      intro p2 hp2
      rcases List.mem_map.mp hp2 with ⟨p, hp, rfl⟩
      have h1 := hstock p hp
      rw [draftTotal_cons] at h1
      by_cases he : p.id = d.productId
      · rw [if_pos he.symm] at h1
        have hbe : (p.id == d.productId) = true := beq_iff_eq.mpr he
        simp only [hbe, if_true]
        omega
      · have hc2 : ¬ (d.productId = p.id) := fun hc => he hc.symm
        rw [if_neg hc2] at h1
        have hne : (p.id == d.productId) = false := beq_eq_false_iff_ne.mpr he
        simp only [hne, Bool.false_eq_true, if_false]
        omega
    rcases ih { db with
        orderItems := db.orderItems ++
          [⟨db.nextOrderItemId, oid, d.productId, d.quantity, d.price⟩],
        nextOrderItemId := db.nextOrderItemId + 1,
        products := db.products.map (fun p =>
          if p.id == d.productId then { p with stock := p.stock - d.quantity } else p) }
      hq2 hstock2 with ⟨rows2, ha, hm⟩
    refine ⟨⟨db.nextOrderItemId, oid, d.productId, d.quantity, d.price⟩ :: rows2, ?_, ?_⟩
    · have hcomp : (db.products.map (fun p =>
          if p.id == d.productId then { p with stock := p.stock - d.quantity } else p)).map
            (fun p => { p with stock := p.stock - draftTotal rest p.id }) =
          db.products.map
            (fun p => { p with stock := p.stock - draftTotal (d :: rest) p.id }) := by
        rw [List.map_map]
        refine List.map_congr_left (fun p _ => ?_)
        by_cases he : p.id = d.productId
        · have hbe : (p.id == d.productId) = true := beq_iff_eq.mpr he
          simp only [Function.comp, hbe, if_true, draftTotal_cons, if_pos he.symm]
          congr 1
          omega
        · have hne : (p.id == d.productId) = false := beq_eq_false_iff_ne.mpr he
          have hc2 : ¬ (d.productId = p.id) := fun hc => he hc.symm
          simp only [Function.comp, hne, Bool.false_eq_true, if_false, draftTotal_cons,
            if_neg hc2]
          congr 1
          omega
      rw [hstep, ha]
      dsimp only
      simp only [List.length_cons]
      rw [hcomp, List.append_assoc, List.singleton_append]
      rw [(by omega :
        db.nextOrderItemId + 1 + rows2.length = db.nextOrderItemId + (rows2.length + 1))]
    · simp only [List.map_cons, hm]

/-- The order insert succeeds for an existing user and nonnegative total,
issuing the next order id with status pending. -/
theorem insertOrderChecked_ok {db : DB} {uid : Nat} {total : Int} {addr pm : String}
    (hu : uid ∈ db.users) (ht : 0 ≤ total) :
    insertOrderChecked db uid total addr pm =
      some ({ db with
        orders := db.orders ++ [⟨db.nextOrderId, uid, "pending", total, addr, pm⟩],
        nextOrderId := db.nextOrderId + 1 },
        ⟨db.nextOrderId, uid, "pending", total, addr, pm⟩) := by
  unfold insertOrderChecked
  rw [if_pos (by simp [hu, ht])]

/-- A found active product is a stored row carrying the looked-up id. -/
theorem findActiveProduct_mem {db : DB} {pid : Nat} {p : Product}
    (h : findActiveProduct db pid = some p) :
    p ∈ db.products ∧ p.id = pid ∧ p.isActive = true := by
  have h1 := List.mem_of_find?_eq_some h
  have h2 := List.find?_some h
  rw [Bool.and_eq_true, beq_iff_eq] at h2
  exact ⟨h1, h2.1, h2.2⟩

/-- The drafts built from request lines total what the lines request. -/
theorem draftTotal_map (db : DB) (items : List CreateOrderItemRequest) (pid : Nat) :
    draftTotal (items.map (fun it =>
      ⟨it.productId, it.quantity, priceOf db it.productId⟩)) pid =
      requestedTotal items pid := by
  induction items with
  | nil => rfl
  | cons it0 rest ih =>
    rw [List.map_cons, draftTotal_cons, requestedTotal_cons, ih]

/-- Splitting a release quantity over the head order_items row. -/
theorem releaseQty_cons (r : OrderItem) (rt : List OrderItem) (oid pid : Nat) :
    releaseQty (r :: rt) oid pid =
      if (r.orderId == oid && r.productId == pid) = true then r.quantity
      else releaseQty rt oid pid := by
  unfold releaseQty
  by_cases h : (r.orderId == oid && r.productId == pid) = true
  · rw [List.find?_cons_of_pos (p := fun oi : OrderItem => oi.orderId == oid && oi.productId == pid) rt h, if_pos h]
  · rw [List.find?_cons_of_neg (p := fun oi : OrderItem => oi.orderId == oid && oi.productId == pid) rt h, if_neg h]

/-- Release quantities over positive-quantity rows are nonnegative. -/
theorem releaseQty_nonneg {ois : List OrderItem} {oid pid : Nat}
    (hq : ∀ oi ∈ ois, 0 < oi.quantity) : 0 ≤ releaseQty ois oid pid := by
  unfold releaseQty
  cases h : ois.find? (fun oi => oi.orderId == oid && oi.productId == pid) with
  | none => exact le_refl 0
  | some oi => exact le_of_lt (hq oi (List.mem_of_find?_eq_some h))

/-- Rows whose order id never matches release nothing. -/
theorem releaseQty_eq_zero {ois : List OrderItem} {oid : Nat}
    (h : ∀ oi ∈ ois, oi.orderId ≠ oid) (pid : Nat) : releaseQty ois oid pid = 0 := by
  unfold releaseQty
  have h1 : ois.find? (fun oi => oi.orderId == oid && oi.productId == pid) = none := by
    rw [List.find?_eq_none]
    intro oi hoi
    simp [h oi hoi]
  rw [h1]

/-- A prefix of rows of other orders does not affect the release scan. -/
theorem releaseQty_append_left {l1 l2 : List OrderItem} {oid : Nat}
    (h : ∀ oi ∈ l1, oi.orderId ≠ oid) (pid : Nat) :
    releaseQty (l1 ++ l2) oid pid = releaseQty l2 oid pid := by
  unfold releaseQty
  have h1 : l1.find? (fun oi => oi.orderId == oid && oi.productId == pid) = none := by
    rw [List.find?_eq_none]
    intro oi hoi
    simp [h oi hoi]
  rw [List.find?_append, h1, Option.none_or]

/-- For an order whose lines reference pairwise distinct products, the
inserted order rows release, per product, exactly what the request lines
asked for: the release scan finds the product's sole line. -/
theorem releaseQty_rows_eq_requestedTotal {db : DB} {oid : Nat} :
    ∀ {items : List CreateOrderItemRequest} {rows : List OrderItem},
      rows.map (fun r => (r.orderId, r.productId, r.quantity, r.price)) =
        items.map (fun it => (oid, it.productId, it.quantity, priceOf db it.productId)) →
      (items.map (fun it => it.productId)).Nodup →
      ∀ pid, releaseQty rows oid pid = requestedTotal items pid := by
  intro items
  induction items with
  | nil =>
    intro rows hm _ pid
    rw [List.map_nil, List.map_eq_nil_iff] at hm
    subst hm
    rfl
  | cons it0 rest ih =>
    intro rows hm hnd pid
    cases rows with
    | nil => cases hm
    | cons r rt =>
      rw [List.map_cons, List.map_cons] at hm
      rw [List.cons.injEq, Prod.mk.injEq, Prod.mk.injEq, Prod.mk.injEq] at hm
      obtain ⟨⟨ho, hp, hq, _⟩, hrest⟩ := hm
      rw [List.map_cons, List.nodup_cons] at hnd
      obtain ⟨hn1, hn2⟩ := hnd
      rw [releaseQty_cons, requestedTotal_cons, ih hrest hn2 pid]
      by_cases he : it0.productId = pid
      · rw [if_pos (by simp [ho, hp, he]), if_pos he, hq]
        have hz : requestedTotal rest pid = 0 := by
          apply requestedTotal_eq_zero
          intro it hit hc
          exact hn1 (he ▸ hc ▸ List.mem_map_of_mem (fun i => i.productId) hit)
        rw [hz, add_zero]
      · rw [if_neg (by simp [hp, he]), if_neg he, zero_add]

/-- Every inserted order row carries the created order's id, a request
line's product and quantity, and that product's snapshot price. -/
theorem tuple_map_mem {db : DB} {oid : Nat} {items : List CreateOrderItemRequest}
    {rows : List OrderItem}
    (hm : rows.map (fun r => (r.orderId, r.productId, r.quantity, r.price)) =
      items.map (fun it => (oid, it.productId, it.quantity, priceOf db it.productId)))
    {r : OrderItem} (hr : r ∈ rows) :
    r.orderId = oid ∧ ∃ it ∈ items, r.productId = it.productId ∧
      r.quantity = it.quantity ∧ r.price = priceOf db it.productId := by
  have h1 : (r.orderId, r.productId, r.quantity, r.price) ∈
      items.map (fun it => (oid, it.productId, it.quantity, priceOf db it.productId)) := by
    rw [← hm]
    exact List.mem_map_of_mem _ hr
  rcases List.mem_map.mp h1 with ⟨it, hit, heq⟩
  rw [Prod.mk.injEq, Prod.mk.injEq, Prod.mk.injEq] at heq
  obtain ⟨h2, h3, h4, h5⟩ := heq
  exact ⟨h2.symm, it, hit, h3.symm, h4.symm, h5.symm⟩

/-- GetOrder returns the found order (whose user the join requires to
exist) with its items hydrated against existing products. -/
theorem GetOrder_ok {db : DB} {id : Nat} {o : Order}
    (hfind : db.orders.find? (fun o2 => o2.id == id) = some o)
    (hcon : db.users.contains o.userId = true) :
    GetOrder db id = .ok (o, db.orderItems.filter
      (fun oi => oi.orderId == id && db.products.any (fun p => p.id == oi.productId))) := by
  simp only [GetOrder, hfind, hcon, if_true]

/-- CreateOrder succeeds whenever every line names an active product, every
quantity is positive, and for each product the summed requested quantity is
covered by its stock: it commits the pending order (next order id, total =
sum of snapshot line totals), one order_items row per line at the line
product's snapshot price, and per-product stock decrements, and returns the
hydrated order. -/
theorem CreateOrder_ok {db : DB} {uid : Nat} {req : CreateOrderRequest}
    (hpnd : (db.products.map (fun p => p.id)).Nodup)
    (hpinv : ∀ p ∈ db.products, 0 ≤ p.stock ∧ 0 ≤ p.price)
    (hofr : ∀ o ∈ db.orders, o.id < db.nextOrderId)
    (hoifr : ∀ oi ∈ db.orderItems, oi.orderId < db.nextOrderId)
    (hu : uid ∈ db.users)
    (hq : ∀ it ∈ req.items, 0 < it.quantity)
    (hact : ∀ it ∈ req.items, (findActiveProduct db it.productId).isSome)
    (hstock : ∀ it ∈ req.items, ∀ p, findActiveProduct db it.productId = some p →
      requestedTotal req.items it.productId ≤ p.stock) :
    ∃ rows : List OrderItem,
      CreateOrder db uid req =
        ({ db with
            products := db.products.map
              (fun p => { p with stock := p.stock - requestedTotal req.items p.id }),
            orders := db.orders ++ [⟨db.nextOrderId, uid, "pending",
              (req.items.map (fun it => priceOf db it.productId * it.quantity)).sum,
              req.shippingAddress, req.paymentMethod⟩],
            orderItems := db.orderItems ++ rows,
            nextOrderId := db.nextOrderId + 1,
            nextOrderItemId := db.nextOrderItemId + rows.length },
         .ok (⟨db.nextOrderId, uid, "pending",
            (req.items.map (fun it => priceOf db it.productId * it.quantity)).sum,
            req.shippingAddress, req.paymentMethod⟩, rows)) ∧
      rows.map (fun r => (r.orderId, r.productId, r.quantity, r.price)) =
        req.items.map (fun it =>
          (db.nextOrderId, it.productId, it.quantity, priceOf db it.productId)) := by
  have hval : ∀ it ∈ req.items, ∃ p, findActiveProduct db it.productId = some p ∧
      it.quantity ≤ p.stock := by
    intro it hit
    rcases Option.isSome_iff_exists.mp (hact it hit) with ⟨p, hp⟩
    exact ⟨p, hp, le_trans (le_requestedTotal hq hit) (hstock it hit p hp)⟩
  have hv := validateItems_ok hval
  have hpr : ∀ it ∈ req.items, 0 ≤ priceOf db it.productId := by
    intro it hit
    rcases Option.isSome_iff_exists.mp (hact it hit) with ⟨p, hp⟩
    have h1 := (findActiveProduct_mem hp).1
    have h2 : priceOf db it.productId = p.price := by simp [priceOf, hp]
    rw [h2]
    exact (hpinv p h1).2
  have htot : 0 ≤ (req.items.map
      (fun it => priceOf db it.productId * it.quantity)).sum := by
    refine sum_map_nonneg (fun it hit => mul_nonneg (hpr it hit) ?_)
    exact le_of_lt (hq it hit)
  have hio := @insertOrderChecked_ok db uid _ req.shippingAddress req.paymentMethod hu htot
  have hbound : ∀ p ∈ db.products, requestedTotal req.items p.id ≤ p.stock := by
    intro p hp
    by_cases hex : ∃ it ∈ req.items, it.productId = p.id
    · rcases hex with ⟨it, hit, he⟩
      rcases Option.isSome_iff_exists.mp (hact it hit) with ⟨q, hq2⟩
      obtain ⟨hqmem, hqid, _⟩ := findActiveProduct_mem hq2
      have hqp : q = p := List.inj_on_of_nodup_map hpnd hqmem hp (by rw [hqid, he])
      have h3 := hstock it hit q hq2
      rw [he, hqp] at h3
      exact h3
    · push_neg at hex
      rw [requestedTotal_eq_zero hex]
      exact (hpinv p hp).1
  have hdq : ∀ d ∈ req.items.map (fun it =>
      (⟨it.productId, it.quantity, priceOf db it.productId⟩ : OrderItemDraft)),
      0 < d.quantity ∧ 0 ≤ d.price := by
    intro d hd
    rcases List.mem_map.mp hd with ⟨it, hit, rfl⟩
    exact ⟨hq it hit, hpr it hit⟩
  have hds : ∀ p ∈ db.products, draftTotal (req.items.map (fun it =>
      (⟨it.productId, it.quantity, priceOf db it.productId⟩ : OrderItemDraft))) p.id ≤ p.stock := by
    intro p hp
    rw [draftTotal_map]
    exact hbound p hp
  rcases @applyOrderItems_ok db.nextOrderId
    (req.items.map (fun it =>
      (⟨it.productId, it.quantity, priceOf db it.productId⟩ : OrderItemDraft)))
    { db with
      orders := db.orders ++ [⟨db.nextOrderId, uid, "pending",
        (req.items.map (fun it => priceOf db it.productId * it.quantity)).sum,
        req.shippingAddress, req.paymentMethod⟩],
      nextOrderId := db.nextOrderId + 1 }
    hdq hds with ⟨rows, ha, hm⟩
  rw [List.map_map] at hm
  have hm2 : rows.map (fun r => (r.orderId, r.productId, r.quantity, r.price)) =
      req.items.map (fun it =>
        (db.nextOrderId, it.productId, it.quantity, priceOf db it.productId)) := hm
  have hrow := fun r hr => tuple_map_mem hm2 (r := r) hr
  refine ⟨rows, ?_, hm2⟩
  have hfind : (db.orders ++ [(⟨db.nextOrderId, uid, "pending",
      (req.items.map (fun it => priceOf db it.productId * it.quantity)).sum,
      req.shippingAddress, req.paymentMethod⟩ : Order)]).find?
        (fun o2 => o2.id == db.nextOrderId) = some
      ⟨db.nextOrderId, uid, "pending",
        (req.items.map (fun it => priceOf db it.productId * it.quantity)).sum,
        req.shippingAddress, req.paymentMethod⟩ := by
    refine find?_eq_some_unique (List.mem_append_right _ (List.mem_singleton.mpr rfl))
      (by simp) ?_
    intro b hb hpb
    rcases List.mem_append.mp hb with hb1 | hb2
    · have h1 := hofr b hb1
      rw [beq_iff_eq] at hpb
      omega
    · exact List.mem_singleton.mp hb2
  have hcon : db.users.contains uid = true := by simp [hu]
  have hfil : (db.orderItems ++ rows).filter (fun oi => oi.orderId == db.nextOrderId &&
      (db.products.map (fun p =>
        { p with stock := p.stock - requestedTotal req.items p.id })).any
          (fun p => p.id == oi.productId)) = rows := by
    rw [List.filter_append]
    have h1 : db.orderItems.filter (fun oi => oi.orderId == db.nextOrderId &&
        (db.products.map (fun p =>
          { p with stock := p.stock - requestedTotal req.items p.id })).any
            (fun p => p.id == oi.productId)) = [] := by
      rw [List.filter_eq_nil_iff]
      intro oi hoi
      have h2 := hoifr oi hoi
      have h3 : (oi.orderId == db.nextOrderId) = false :=
        beq_eq_false_iff_ne.mpr (by omega)
      simp [h3]
    have h2 : rows.filter (fun oi => oi.orderId == db.nextOrderId &&
        (db.products.map (fun p =>
          { p with stock := p.stock - requestedTotal req.items p.id })).any
            (fun p => p.id == oi.productId)) = rows := by
      rw [List.filter_eq_self]
      intro r hr
      obtain ⟨hoid, it, hit, hpid, _, _⟩ := hrow r hr
      rcases Option.isSome_iff_exists.mp (hact it hit) with ⟨q, hq2⟩
      obtain ⟨hqmem, hqid, _⟩ := findActiveProduct_mem hq2
      rw [Bool.and_eq_true]
      refine ⟨beq_iff_eq.mpr hoid, ?_⟩
      rw [List.any_eq_true]
      refine ⟨{ q with stock := q.stock - requestedTotal req.items q.id },
        List.mem_map_of_mem _ hqmem, ?_⟩
      rw [beq_iff_eq, hpid, ← hqid]
    rw [h1, h2, List.nil_append]
  have hgo2 : GetOrder { db with
      products := db.products.map
        (fun p => { p with stock := p.stock - requestedTotal req.items p.id }),
      orders := db.orders ++ [⟨db.nextOrderId, uid, "pending",
        (req.items.map (fun it => priceOf db it.productId * it.quantity)).sum,
        req.shippingAddress, req.paymentMethod⟩],
      orderItems := db.orderItems ++ rows,
      nextOrderId := db.nextOrderId + 1,
      nextOrderItemId := db.nextOrderItemId + rows.length } db.nextOrderId =
      .ok (⟨db.nextOrderId, uid, "pending",
        (req.items.map (fun it => priceOf db it.productId * it.quantity)).sum,
        req.shippingAddress, req.paymentMethod⟩, rows) := by
    have h := @GetOrder_ok { db with
        products := db.products.map
          (fun p => { p with stock := p.stock - requestedTotal req.items p.id }),
        orders := db.orders ++ [⟨db.nextOrderId, uid, "pending",
          (req.items.map (fun it => priceOf db it.productId * it.quantity)).sum,
          req.shippingAddress, req.paymentMethod⟩],
        orderItems := db.orderItems ++ rows,
        nextOrderId := db.nextOrderId + 1,
        nextOrderItemId := db.nextOrderItemId + rows.length }
      db.nextOrderId
      ⟨db.nextOrderId, uid, "pending",
        (req.items.map (fun it => priceOf db it.productId * it.quantity)).sum,
        req.shippingAddress, req.paymentMethod⟩ hfind hcon
    rw [h]
    simpa only [] using congrArg (fun l => (Except.ok (ε := SvcError)
      ((⟨db.nextOrderId, uid, "pending",
        (req.items.map (fun it => priceOf db it.productId * it.quantity)).sum,
        req.shippingAddress, req.paymentMethod⟩ : Order), l))) hfil
  simp only [CreateOrder, CreateOrderTx, hv, hio, ha, draftTotal_map, hgo2]

/-- The conditional stock restoration succeeds when every row can absorb
its release total. -/
theorem restoreStockChecked_eq_some {ps : List Product} {ois : List OrderItem} {oid : Nat}
    (h : ∀ p ∈ ps, 0 ≤ p.stock + releaseQty ois oid p.id) :
    restoreStockChecked ps ois oid =
      some (ps.map (fun p => { p with stock := p.stock + releaseQty ois oid p.id })) := by
  unfold restoreStockChecked
  rw [if_pos]
  rw [List.all_eq_true]
  intro p hp
  simpa using h p hp

/-- The fresh order appended to rows with smaller ids is what the id scan
finds. -/
theorem find?_append_fresh {orders : List Order} {nid : Nat} {o : Order}
    (hofr : ∀ o2 ∈ orders, o2.id < nid) (ho : o.id = nid) :
    (orders ++ [o]).find? (fun o2 => o2.id == nid) = some o := by
  refine find?_eq_some_unique (List.mem_append_right _ (List.mem_singleton.mpr rfl))
    (by simp [ho]) ?_
  intro b hb hpb
  rcases List.mem_append.mp hb with hb1 | hb2
  · have h1 := hofr b hb1
    rw [beq_iff_eq] at hpb
    omega
  · exact List.mem_singleton.mp hb2

/-- Setting one order's status preserves what the id scan finds, with the
status rewritten. -/
theorem find?_map_setStatus {orders : List Order} {id : Nat} {o : Order} {s : String}
    (hfind : orders.find? (fun o2 => o2.id == id) = some o) :
    (orders.map (fun o2 => if o2.id == id then { o2 with status := s } else o2)).find?
      (fun o2 => o2.id == id) = some { o with status := s } := by
  rw [List.find?_map]
  have hfun : ((fun o2 : Order => o2.id == id) ∘
      (fun o2 : Order => if o2.id == id then { o2 with status := s } else o2)) =
      (fun o2 : Order => o2.id == id) := by
    funext o2
    by_cases h : (o2.id == id) = true
    · simp [Function.comp, h]
    · simp [Function.comp, h]
  rw [hfun, hfind]
  have ho := List.find?_some (p := fun o2 : Order => o2.id == id) hfind
  simp only at ho
  simp [ho]
  intro hcontra
  exact absurd (beq_iff_eq.mp ho) hcontra

/-- CancelOrder on a cancellable order: in one transaction the status
becomes cancelled and every product's stock grows by the order's release
total for it. -/
theorem CancelOrder_ok {db : DB} {id : Nat} {o : Order}
    (hfind : db.orders.find? (fun o2 => o2.id == id) = some o)
    (hnc : o.status ≠ "cancelled") (hnd : o.status ≠ "delivered")
    (hchk : ∀ p ∈ db.products, 0 ≤ p.stock + releaseQty db.orderItems id p.id) :
    CancelOrder db id =
      ({ db with
          orders := db.orders.map
            (fun o2 => if o2.id == id then { o2 with status := "cancelled" } else o2),
          products := db.products.map
            (fun p => { p with stock := p.stock + releaseQty db.orderItems id p.id }) },
        .ok ()) := by
  have h1 : (o.status == "cancelled") = false := by
    simp [hnc]
  have h2 : (o.status == "delivered") = false := by
    simp [hnd]
  simp only [CancelOrder, hfind, h1, h2, restoreStockChecked_eq_some hchk,
    Bool.false_eq_true, if_false]

/-- CancelOrder on an already-cancelled order: rejected, nothing written. -/
theorem CancelOrder_already {db : DB} {id : Nat} {o : Order}
    (hfind : db.orders.find? (fun o2 => o2.id == id) = some o)
    (hc : o.status = "cancelled") :
    CancelOrder db id = (db, .error .alreadyCancelled) := by
  simp only [CancelOrder, hfind, hc]
  simp

/-!  Claim theorems. -/

/-- Claim C1: for every user id and every order-item list in which some
line names an absent or inactive product or requests a quantity exceeding
that product's current stock, CreateOrder fails with the corresponding
product-not-found or insufficient-stock rejection of a failing line, and
writes nothing: the state it returns is the caller's state, so no order
row, no order-item row, and no stock change is committed. -/
theorem C1_createOrder_rejects_invalid_lines (db : DB) (uid : Nat)
    (req : CreateOrderRequest)
    (h : ∃ it ∈ req.items, (lineError db it).isSome) :
    ∃ e, CreateOrder db uid req = (db, .error e) ∧
      (∃ it ∈ req.items, lineError db it = some e) ∧
      ((∃ pid, e = .productNotFound pid) ∨
        ∃ n a r, e = .insufficientStock n a r) := by
  rcases firstLineError_of_exists h with ⟨e, h1, it, hmem, hle⟩
  exact ⟨e, CreateOrder_error_of_firstLineError h1, ⟨it, hmem, hle⟩, lineError_shape hle⟩

/-- Claim C1 witness at a concrete store: a request naming the absent
product 2 and an oversized request for product 1 both fail and write
nothing. -/
theorem C1_witness :
    (∃ it ∈ ([⟨2, 1⟩] : List CreateOrderItemRequest), (lineError sampleDB it).isSome) ∧
    (∃ e, CreateOrder sampleDB 1 ⟨"a", "cash", [⟨2, 1⟩]⟩ = (sampleDB, .error e) ∧
      (∃ it ∈ ([⟨2, 1⟩] : List CreateOrderItemRequest), lineError sampleDB it = some e) ∧
      ((∃ pid, e = .productNotFound pid) ∨
        ∃ n a r, e = .insufficientStock n a r)) :=
  ⟨by decide, C1_createOrder_rejects_invalid_lines sampleDB 1 ⟨"a", "cash", [⟨2, 1⟩]⟩
    (by decide)⟩

/-- Claim C2 counterexample: with product 1 active at stock 5, the request
with lines [(1,3),(1,3)] satisfies the claim's hypothesis as stated (every
line names an active product whose stock, 5, is at least the line's
quantity, 3), yet CreateOrder fails: the second per-line decrement drives
the stock to -1, the products CHECK (stock >= 0) constraint aborts the
UPDATE, and the transaction rolls back. -/
theorem C2_counterexample :
    (∀ it ∈ (⟨"a", "cash", [⟨1, 3⟩, ⟨1, 3⟩]⟩ : CreateOrderRequest).items,
      0 < it.quantity ∧ ∃ p, findActiveProduct sampleDB it.productId = some p ∧
        it.quantity ≤ p.stock) ∧
    CreateOrder sampleDB 1 ⟨"a", "cash", [⟨1, 3⟩, ⟨1, 3⟩]⟩ =
      (sampleDB, .error (.storageError "failed to update product stock")) :=
  ⟨by decide, by decide⟩

/-- Claim C2 (amended): for every non-empty order-item list with positive
quantities in which every line names an active product and, for each
product, the summed quantity requested across its lines is at most that
product's current stock, CreateOrder succeeds with a pending order; each
named product's stock is decremented by exactly its summed requested
quantity, each stored line's price is the product's price at creation
time, and the order's total is the sum over lines of price times
quantity. -/
theorem C2_createOrder_success_amended (db : DB) (uid : Nat)
    (req : CreateOrderRequest) (hinv : DBInv db) (hu : uid ∈ db.users)
    (_hne : req.items ≠ [])
    (hq : ∀ it ∈ req.items, 0 < it.quantity)
    (hact : ∀ it ∈ req.items, (findActiveProduct db it.productId).isSome)
    (hstock : ∀ it ∈ req.items, ∀ p, findActiveProduct db it.productId = some p →
      requestedTotal req.items it.productId ≤ p.stock) :
    ∃ db2 o rows,
      CreateOrder db uid req = (db2, .ok (o, rows)) ∧
      o.status = "pending" ∧
      db2.products = db.products.map
        (fun p => { p with stock := p.stock - requestedTotal req.items p.id }) ∧
      rows.map (fun r => (r.productId, r.quantity, r.price)) =
        req.items.map (fun it => (it.productId, it.quantity, priceOf db it.productId)) ∧
      o.totalAmount =
        (req.items.map (fun it => priceOf db it.productId * it.quantity)).sum := by
  obtain ⟨hp, ho, hoi, hc, hci⟩ := hinv
  rcases CreateOrder_ok hp.1 hp.2 (fun o2 ho2 => (ho.2 o2 ho2).1)
    (fun oi hoi2 => (hoi oi hoi2).1) hu hq hact hstock with ⟨rows, hco, hm⟩
  refine ⟨_, _, rows, hco, rfl, rfl, ?_, rfl⟩
  have h2 := congrArg (List.map
    (fun t : Nat × Nat × Int × Int => (t.2.1, t.2.2.1, t.2.2.2))) hm
  simpa [List.map_map, Function.comp] using h2

/-- Claim C2 witness: ordering 3 Widgets from stock 5 at price 10 succeeds
with a pending order, stock 2, one line priced 10, and total 30. -/
theorem C2_witness :
    ∃ db2 o rows,
      CreateOrder sampleDB 1 ⟨"a", "cash", [⟨1, 3⟩]⟩ = (db2, .ok (o, rows)) ∧
      o.status = "pending" ∧
      db2.products = sampleDB.products.map
        (fun p => { p with
          stock := p.stock - requestedTotal [⟨1, 3⟩] p.id }) ∧
      rows.map (fun r => (r.productId, r.quantity, r.price)) =
        ([⟨1, 3⟩] : List CreateOrderItemRequest).map
          (fun it => (it.productId, it.quantity, priceOf sampleDB it.productId)) ∧
      o.totalAmount =
        (([⟨1, 3⟩] : List CreateOrderItemRequest).map
          (fun it => priceOf sampleDB it.productId * it.quantity)).sum :=
  C2_createOrder_success_amended sampleDB 1 ⟨"a", "cash", [⟨1, 3⟩]⟩
    (by decide) (by decide) (by decide) (by decide) (by decide) (by decide)

/-- Claim C4 counterexample: CreateOrder accepts the duplicate-line
request [(1,3),(1,3)] against stock 6 (stock drops to 0, two order_items
rows committed), but CancelOrder's UPDATE ... FROM applies only one
matching order_items row per product row, restoring 3: the final stock, 3,
differs from the pre-create stock, 6, so Cancel does not restore exactly
what Create consumed. -/
theorem C4_counterexample :
    (CreateOrder dupLineDB 1 ⟨"a", "cash", [⟨1, 3⟩, ⟨1, 3⟩]⟩).2.isOk = true ∧
    (CancelOrder (CreateOrder dupLineDB 1 ⟨"a", "cash", [⟨1, 3⟩, ⟨1, 3⟩]⟩).1 1).2 =
      .ok () ∧
    (CancelOrder (CreateOrder dupLineDB 1
      ⟨"a", "cash", [⟨1, 3⟩, ⟨1, 3⟩]⟩).1 1).1.products.map (fun p => p.stock) = [3] ∧
    dupLineDB.products.map (fun p => p.stock) = [6] :=
  ⟨by decide, by decide, by decide, by decide⟩

/-- Claim C4 (amended): cancelling an order created by CreateOrder over
lines referencing pairwise distinct products restores every product's
stock to its value immediately before the creation (no other mutation
happening in between): for such orders the restore's single applied
order_items row per product is exactly the product's one line, so Cancel
exactly undoes Create. -/
theorem C4_cancel_restores_stock (db : DB) (uid : Nat) (req : CreateOrderRequest)
    (hinv : DBInv db) (hu : uid ∈ db.users)
    (hnd : (req.items.map (fun it => it.productId)).Nodup)
    (hq : ∀ it ∈ req.items, 0 < it.quantity)
    (hact : ∀ it ∈ req.items, (findActiveProduct db it.productId).isSome)
    (hstock : ∀ it ∈ req.items, ∀ p, findActiveProduct db it.productId = some p →
      requestedTotal req.items it.productId ≤ p.stock) :
    ∃ db2 o rows db3,
      CreateOrder db uid req = (db2, .ok (o, rows)) ∧
      CancelOrder db2 o.id = (db3, .ok ()) ∧
      db3.products = db.products := by
  obtain ⟨hp, ho, hoi, hc, hci⟩ := hinv
  rcases CreateOrder_ok hp.1 hp.2 (fun o2 ho2 => (ho.2 o2 ho2).1)
    (fun oi hoi2 => (hoi oi hoi2).1) hu hq hact hstock with ⟨rows, hco, hm⟩
  have hrel : ∀ pid, releaseQty (db.orderItems ++ rows) db.nextOrderId pid =
      requestedTotal req.items pid := by
    intro pid
    rw [releaseQty_append_left (fun oi hoi2 => by have h1 := (hoi oi hoi2).1; omega),
      releaseQty_rows_eq_requestedTotal hm hnd pid]
  have hfind2 : (db.orders ++ [(⟨db.nextOrderId, uid, "pending",
      (req.items.map (fun it => priceOf db it.productId * it.quantity)).sum,
      req.shippingAddress, req.paymentMethod⟩ : Order)]).find?
        (fun o2 => o2.id == db.nextOrderId) = some
      ⟨db.nextOrderId, uid, "pending",
        (req.items.map (fun it => priceOf db it.productId * it.quantity)).sum,
        req.shippingAddress, req.paymentMethod⟩ :=
    find?_append_fresh (fun o2 ho2 => (ho.2 o2 ho2).1) rfl
  have hchk : ∀ p2 ∈ db.products.map
      (fun p => { p with stock := p.stock - requestedTotal req.items p.id }),
      0 ≤ p2.stock + releaseQty (db.orderItems ++ rows) db.nextOrderId p2.id := by
    intro p2 hp2
    rcases List.mem_map.mp hp2 with ⟨p, hpmem, rfl⟩
    dsimp only
    rw [hrel]
    have h1 := (hp.2 p hpmem).1
    have h2 : 0 ≤ requestedTotal req.items p.id := requestedTotal_nonneg hq
    omega
  have hnc2 : ("pending" : String) ≠ "cancelled" := by decide
  have hnd2 : ("pending" : String) ≠ "delivered" := by decide
  have hcan := @CancelOrder_ok
    { db with
      products := db.products.map (fun p => { p with stock := p.stock - requestedTotal req.items p.id }),
      orders := db.orders ++ [⟨db.nextOrderId, uid, "pending", (req.items.map (fun it => priceOf db it.productId * it.quantity)).sum, req.shippingAddress, req.paymentMethod⟩],
      orderItems := db.orderItems ++ rows,
      nextOrderId := db.nextOrderId + 1,
      nextOrderItemId := db.nextOrderItemId + rows.length }
    db.nextOrderId
    ⟨db.nextOrderId, uid, "pending", (req.items.map (fun it => priceOf db it.productId * it.quantity)).sum, req.shippingAddress, req.paymentMethod⟩
    hfind2 hnc2 hnd2 hchk
  refine ⟨_, _, rows, _, hco, hcan, ?_⟩
  show (db.products.map (fun p => { p with stock := p.stock - requestedTotal req.items p.id })).map (fun p => { p with stock := p.stock + releaseQty (db.orderItems ++ rows) db.nextOrderId p.id }) = db.products
  rw [List.map_map]
  have hid : ∀ p ∈ db.products,
      ((fun p => { p with stock := p.stock + releaseQty (db.orderItems ++ rows) db.nextOrderId p.id }) ∘ (fun p => { p with stock := p.stock - requestedTotal req.items p.id })) p = p := by
    intro p _
    simp only [Function.comp]
    rw [hrel]
    have h3 : p.stock - requestedTotal req.items p.id + requestedTotal req.items p.id =
        p.stock := by omega
    rw [h3]
  rw [List.map_congr_left hid, List.map_id']

/-- Claim C4 witness: ordering 3 Widgets then cancelling the order leaves
the catalog's stocks exactly as before the order. -/
theorem C4_witness :
    ∃ db2 o rows db3,
      CreateOrder sampleDB 1 ⟨"a", "cash", [⟨1, 3⟩]⟩ = (db2, .ok (o, rows)) ∧
      CancelOrder db2 o.id = (db3, .ok ()) ∧
      db3.products = sampleDB.products :=
  C4_cancel_restores_stock sampleDB 1 ⟨"a", "cash", [⟨1, 3⟩]⟩
    (by decide) (by decide) (by decide) (by decide) (by decide) (by decide)

/-- Claim C5 counterexample: in a store whose pending order 1 carries two
order_items rows for product 1 (quantities 3 and 2), CancelOrder succeeds
but the UPDATE ... FROM restore applies only one matching row per product
row: stock rises by 3, not by each line's quantity (3 + 2 = 5), so the
claim's release conclusion fails on a schema-legal state that CreateOrder
itself can produce. -/
theorem C5_counterexample :
    DBInv dupOrderDB ∧
    (CancelOrder dupOrderDB 1).2 = .ok () ∧
    (CancelOrder dupOrderDB 1).1.products.map (fun p => p.stock) = [3] ∧
    ((dupOrderDB.orderItems.filter
      (fun oi => oi.orderId == 1 && oi.productId == 1)).map
      (fun oi => oi.quantity)).sum = 5 ∧
    dupOrderDB.products.map (fun p => p.stock) = [0] :=
  ⟨by decide, by decide, by decide, by decide, by decide⟩

/-- Claim C5 (amended): CancelOrder fails with order-not-found when the id
scan finds nothing, already-cancelled on a cancelled order, and
cannot-cancel-delivered on a delivered order; from every other status it
sets, in one transaction, the status to cancelled and increments each line
product's stock by one of its matching lines' quantity (the first stored
one — equal to that line's quantity whenever the product occurs in one
line, as in every checkout-created order), and a second Cancel then fails
with already-cancelled leaving the state untouched, so stock is
incremented exactly once. -/
theorem C5_cancelOrder_spec (db : DB) (id : Nat) (hinv : DBInv db) :
    (db.orders.find? (fun o2 => o2.id == id) = none →
      CancelOrder db id = (db, .error .orderNotFound)) ∧
    (∀ o, db.orders.find? (fun o2 => o2.id == id) = some o →
      (o.status = "cancelled" → CancelOrder db id = (db, .error .alreadyCancelled)) ∧
      (o.status = "delivered" →
        CancelOrder db id = (db, .error .cannotCancelDelivered)) ∧
      (o.status ≠ "cancelled" → o.status ≠ "delivered" →
        ∃ db2, CancelOrder db id = (db2, .ok ()) ∧
          db2.orders = db.orders.map
            (fun o2 => if o2.id == id then { o2 with status := "cancelled" } else o2) ∧
          db2.products = db.products.map
            (fun p => { p with stock := p.stock + releaseQty db.orderItems id p.id }) ∧
          db2.orderItems = db.orderItems ∧
          CancelOrder db2 id = (db2, .error .alreadyCancelled))) := by
  obtain ⟨hp, ho, hoi, hc, hci⟩ := hinv
  constructor
  · intro hnone
    simp [CancelOrder, hnone]
  · intro o hfind
    refine ⟨fun hcanc => CancelOrder_already hfind hcanc, ?_, ?_⟩
    · intro hdel
      have h1 : (o.status == "cancelled") = false := by simp [hdel]
      simp [CancelOrder, hfind, h1, hdel]
    · intro hnc hnd
      have hchk : ∀ p ∈ db.products, 0 ≤ p.stock + releaseQty db.orderItems id p.id := by
        intro p hp2
        have h1 := (hp.2 p hp2).1
        have h2 : 0 ≤ releaseQty db.orderItems id p.id :=
          releaseQty_nonneg (fun oi hoi2 => (hoi oi hoi2).2.1)
        omega
      have hcan := CancelOrder_ok hfind hnc hnd hchk
      refine ⟨_, hcan, rfl, rfl, rfl, ?_⟩
      exact CancelOrder_already (find?_map_setStatus hfind) rfl

/-- Claim C5 witness at the pending-order store: the double cancel yields
success then already-cancelled, incrementing stock exactly once. -/
theorem C5_witness :
    ∃ db2, CancelOrder sampleOrderDB 1 = (db2, .ok ()) ∧
      db2.orders = sampleOrderDB.orders.map
        (fun o2 => if o2.id == 1 then { o2 with status := "cancelled" } else o2) ∧
      db2.products = sampleOrderDB.products.map
        (fun p => { p with
          stock := p.stock + releaseQty sampleOrderDB.orderItems 1 p.id }) ∧
      db2.orderItems = sampleOrderDB.orderItems ∧
      CancelOrder db2 1 = (db2, .error .alreadyCancelled) :=
  ((C5_cancelOrder_spec sampleOrderDB 1 (by decide)).2
      ⟨1, 1, "pending", 20, "a", "cash"⟩ (by decide)).2.2 (by decide) (by decide)

/-- Claim C6: a successful UpdateProduct call — in particular one changing
the catalog price — writes only the products table: every order row (so
every total amount) and every order_items row (so every stored line price)
is untouched, while the returned product does carry the new price. -/
theorem C6_price_snapshot_immutable (db : DB) (id : Nat)
    (req : UpdateProductRequest) (db2 : DB) (p2 : Product)
    (h : UpdateProduct db id req = (db2, .ok p2)) :
    db2.orders = db.orders ∧ db2.orderItems = db.orderItems ∧
      db2.carts = db.carts ∧ db2.cartItems = db.cartItems ∧
      (∀ v, req.price = some v → p2.price = v) := by
  unfold UpdateProduct at h
  cases hg : GetProduct db id with
  | error e =>
    rw [hg] at h
    exact absurd (congrArg Prod.snd h) (by simp)
  | ok existing =>
    rw [hg] at h
    dsimp only at h
    split at h
    · exact absurd (congrArg Prod.snd h) (by simp)
    · split at h
      · rename_i hup
        have h1 := congrArg Prod.fst h
        simp only at h1
        rw [← h1]
        refine ⟨rfl, rfl, rfl, rfl, ?_⟩
        intro v hv
        exfalso
        rw [Bool.not_eq_true'] at hup
        simp [UpdateProductRequest.hasUpdates, hv] at hup
      · split at h
        · have h1 := congrArg Prod.fst h
          have h2 := congrArg Prod.snd h
          simp only at h1 h2
          rw [← h1]
          refine ⟨rfl, rfl, rfl, rfl, ?_⟩
          intro v hv
          have h3 : p2 = applyProductUpdates existing req := by
            rw [Except.ok.injEq] at h2
            exact h2.symm
          rw [h3]
          simp [applyProductUpdates, hv]
        · exact absurd (congrArg Prod.snd h) (by simp)

/-- Claim C6 witness: doubling the Widget's price on the pending-order
store leaves the order's total and its stored line price (10) unchanged
while the returned product carries the new price 20. -/
theorem C6_witness :
    (UpdateProduct sampleOrderDB 1 ⟨Option.none, Option.none, some 20, Option.none,
      Option.none, Option.none, Option.none⟩).1.orders = sampleOrderDB.orders ∧
    (UpdateProduct sampleOrderDB 1 ⟨Option.none, Option.none, some 20, Option.none,
      Option.none, Option.none, Option.none⟩).1.orderItems = sampleOrderDB.orderItems ∧
    (UpdateProduct sampleOrderDB 1 ⟨Option.none, Option.none, some 20, Option.none,
      Option.none, Option.none, Option.none⟩).1.carts = sampleOrderDB.carts ∧
    (UpdateProduct sampleOrderDB 1 ⟨Option.none, Option.none, some 20, Option.none,
      Option.none, Option.none, Option.none⟩).1.cartItems = sampleOrderDB.cartItems ∧
    (∀ v, (⟨Option.none, Option.none, some 20, Option.none, Option.none, Option.none,
      Option.none⟩ : UpdateProductRequest).price = some v →
      (⟨1, "Widget", "", 20, 3, 1, "", true⟩ : Product).price = v) :=
  C6_price_snapshot_immutable sampleOrderDB 1
    ⟨Option.none, Option.none, some 20, Option.none, Option.none, Option.none, Option.none⟩
    (UpdateProduct sampleOrderDB 1 ⟨Option.none, Option.none, some 20, Option.none,
      Option.none, Option.none, Option.none⟩).1
    ⟨1, "Widget", "", 20, 3, 1, "", true⟩ (by decide)

/-- Claim C10: for an existing order (with existing owner) and any of the
five status values, UpdateOrderStatus overwrites the status to the
requested value regardless of the current status and changes nothing else
— products (so stock), order items, carts and cart items are untouched —
and after setting the status to cancelled this way, a subsequent Cancel
fails with already-cancelled, releasing no stock. -/
theorem C10_updateOrderStatus_spec (db : DB) (id : Nat) (s : String) (o : Order)
    (hfind : db.orders.find? (fun o2 => o2.id == id) = some o)
    (hucon : db.users.contains o.userId = true)
    (hs : s ∈ validStatuses) :
    ∃ db2 o2 items2,
      UpdateOrderStatus db id ⟨s⟩ = (db2, .ok (o2, items2)) ∧
      o2 = { o with status := s } ∧
      db2.orders = db.orders.map
        (fun o3 => if o3.id == id then { o3 with status := s } else o3) ∧
      db2.products = db.products ∧
      db2.orderItems = db.orderItems ∧
      db2.carts = db.carts ∧
      db2.cartItems = db.cartItems ∧
      (s = "cancelled" → CancelOrder db2 id = (db2, .error .alreadyCancelled)) := by
  have hgo1 := GetOrder_ok hfind hucon
  have hsc : validStatuses.contains s = true := by simp [hs]
  have hfind2 := find?_map_setStatus (s := s) hfind
  have hgo2 := @GetOrder_ok
    { db with orders := db.orders.map (fun o3 => if o3.id == id then { o3 with status := s } else o3) }
    id { o with status := s } hfind2 hucon
  refine ⟨{ db with orders := db.orders.map (fun o3 => if o3.id == id then { o3 with status := s } else o3) },
    { o with status := s },
    db.orderItems.filter (fun oi => oi.orderId == id && db.products.any (fun p => p.id == oi.productId)),
    ?_, rfl, rfl, rfl, rfl, rfl, rfl, ?_⟩
  · simp only [UpdateOrderStatus, hgo1, hsc, if_true, hgo2]
  · intro hcs
    subst hcs
    exact CancelOrder_already hfind2 rfl

/-- Claim C10 witness: setting the pending order's status straight to
cancelled succeeds, touches no stock, and a subsequent Cancel is rejected
with already-cancelled. -/
theorem C10_witness :
    ∃ db2 o2 items2,
      UpdateOrderStatus sampleOrderDB 1 ⟨"cancelled"⟩ = (db2, .ok (o2, items2)) ∧
      o2 = { (⟨1, 1, "pending", 20, "a", "cash"⟩ : Order) with status := "cancelled" } ∧
      db2.orders = sampleOrderDB.orders.map
        (fun o3 => if o3.id == 1 then { o3 with status := "cancelled" } else o3) ∧
      db2.products = sampleOrderDB.products ∧
      db2.orderItems = sampleOrderDB.orderItems ∧
      db2.carts = sampleOrderDB.carts ∧
      db2.cartItems = sampleOrderDB.cartItems ∧
      ("cancelled" = "cancelled" →
        CancelOrder db2 1 = (db2, .error .alreadyCancelled)) :=
  C10_updateOrderStatus_spec sampleOrderDB 1 "cancelled" ⟨1, 1, "pending", 20, "a", "cash"⟩
    (by decide) (by decide) (by decide)

/-!  Cart-service lemmas. -/

/-- GetOrCreateCart returns an existing cart of the user unchanged (the
carts table is UNIQUE on user_id). -/
theorem GetOrCreateCart_found {db : DB} {u : Nat} {c : Cart}
    (hnd : (db.carts.map (fun c2 => c2.userId)).Nodup)
    (hc : c ∈ db.carts) (hcu : c.userId = u) :
    GetOrCreateCart db u = (db, c) := by
  unfold GetOrCreateCart
  rw [find?_eq_some_unique hc (by simp [hcu]) ?_]
  intro b hb hpb
  rw [beq_iff_eq] at hpb
  exact List.inj_on_of_nodup_map hnd hb hc (by rw [hpb, hcu])

/-- GetOrCreateCart never touches the cart_items or products tables. -/
theorem GetOrCreateCart_frame (db : DB) (u : Nat) :
    (GetOrCreateCart db u).1.cartItems = db.cartItems ∧
      (GetOrCreateCart db u).1.products = db.products ∧
      (GetOrCreateCart db u).1.carts =
        (if (db.carts.find? (fun c2 => c2.userId == u)).isSome then db.carts
          else db.carts ++ [⟨db.nextCartId, u⟩]) := by
  unfold GetOrCreateCart
  cases h : db.carts.find? (fun c2 => c2.userId == u) <;> simp

/-- The cart_items scan for a cart/product pair returns the stored row
(UNIQUE(cart_id, product_id)). -/
theorem find?_cartItem {db : DB} {cid pid : Nat} {e : CartItem}
    (hnd : (db.cartItems.map (fun ci => (ci.cartId, ci.productId))).Nodup)
    (he : e ∈ db.cartItems) (hec : e.cartId = cid) (hep : e.productId = pid) :
    db.cartItems.find? (fun ci => ci.cartId == cid && ci.productId == pid) = some e := by
  refine find?_eq_some_unique he (by simp [hec, hep]) ?_
  intro b hb hpb
  rw [Bool.and_eq_true, beq_iff_eq, beq_iff_eq] at hpb
  exact List.inj_on_of_nodup_map hnd hb he
    (by rw [hpb.1, hpb.2, hec, hep])

/-- Claim C8: adding a product already present in the cart never creates a
second row: whenever the call succeeds, the cart holds exactly one
cart_items row for that product, carrying the previous quantity plus the
requested one. -/
theorem C8_cart_merge (db : DB) (u : Nat) (req : AddToCartRequest)
    (hinv : DBInv db) (c : Cart) (hc : c ∈ db.carts) (hcu : c.userId = u)
    (e : CartItem) (he : e ∈ db.cartItems) (hec : e.cartId = c.id)
    (hep : e.productId = req.productId)
    (db2 : DB) (resp : CartResponse)
    (hok : AddToCart db u req = (db2, .ok resp)) :
    db2.cartItems.filter (fun ci => ci.cartId == c.id && ci.productId == req.productId) =
      [{ e with quantity := e.quantity + req.quantity }] := by
  obtain ⟨hp, ho, hoi, hca, hci⟩ := hinv
  have hgoc : GetOrCreateCart db u = (db, c) := GetOrCreateCart_found hca.1 hc hcu
  have hfci := find?_cartItem hci.1 he hec hep
  unfold AddToCart at hok
  rw [hgoc] at hok
  dsimp only at hok
  cases hfp : findActiveProduct db req.productId with
  | none =>
    rw [hfp] at hok
    exact absurd (congrArg Prod.snd hok) (by simp)
  | some p =>
    rw [hfp] at hok
    dsimp only at hok
    rw [hfci] at hok
    dsimp only at hok
    split at hok
    · exact absurd (congrArg Prod.snd hok) (by simp)
    · split at hok
      · have hgoc2 : GetOrCreateCart { db with cartItems := db.cartItems.map (fun ci => if ci.id == e.id then { ci with quantity := e.quantity + req.quantity } else ci) } u = ({ db with cartItems := db.cartItems.map (fun ci => if ci.id == e.id then { ci with quantity := e.quantity + req.quantity } else ci) }, c) :=
          GetOrCreateCart_found hca.1 hc hcu
        have hdb2 : db2 = { db with cartItems := db.cartItems.map (fun ci => if ci.id == e.id then { ci with quantity := e.quantity + req.quantity } else ci) } := by
          have h1 := congrArg Prod.fst hok
          dsimp only at h1
          rw [← h1]
          unfold GetCart
          rw [hgoc2]
        rw [hdb2]
        show (db.cartItems.map (fun ci => if ci.id == e.id then { ci with quantity := e.quantity + req.quantity } else ci)).filter (fun ci => ci.cartId == c.id && ci.productId == req.productId) = [{ e with quantity := e.quantity + req.quantity }]
        rw [List.filter_map]
        have hfun : ((fun ci : CartItem => ci.cartId == c.id && ci.productId == req.productId) ∘ (fun ci => if ci.id == e.id then { ci with quantity := e.quantity + req.quantity } else ci)) = (fun ci : CartItem => ci.cartId == c.id && ci.productId == req.productId) := by
          funext ci
          by_cases h : (ci.id == e.id) = true
          · simp [Function.comp, h]
          · simp [Function.comp, h]
        rw [hfun]
        have hsingle : db.cartItems.filter
            (fun ci => ci.cartId == c.id && ci.productId == req.productId) = [e] := by
          refine filter_eq_single_unique (List.Nodup.of_map _ hci.2.1) he
            (by simp [hec, hep]) ?_
          intro b hb hpb
          rw [Bool.and_eq_true, beq_iff_eq, beq_iff_eq] at hpb
          exact List.inj_on_of_nodup_map hci.1 hb he (by rw [hpb.1, hpb.2, hec, hep])
        rw [hsingle]
        simp
      · exact absurd (congrArg Prod.snd hok) (by simp)

/-- Claim C8 witness: with a cart already holding 2 units of product 1
(stock 5), adding 3 more leaves exactly one row for the product, holding
quantity 5. -/
theorem C8_witness :
    ({ sampleCartDB with
        cartItems := [⟨1, 1, 1, 5⟩] } : DB).cartItems.filter
      (fun ci => ci.cartId == 1 && ci.productId == 1) =
      [{ (⟨1, 1, 1, 2⟩ : CartItem) with quantity := 2 + 3 }] :=
  C8_cart_merge sampleCartDB 1 ⟨1, 3⟩ (by decide) ⟨1, 1⟩ (by decide) rfl
    ⟨1, 1, 1, 2⟩ (by decide) rfl rfl
    { sampleCartDB with cartItems := [⟨1, 1, 1, 5⟩] }
    ⟨1, 1, [⟨⟨1, 1, 1, 5⟩, ⟨1, "Widget", "", 10, 5, 1, "", true⟩⟩], 5, 50⟩
    (by decide)

/-- Claim C9: an AddToCart call whose combined quantity — the requested
quantity plus the quantity of any existing cart row for the product —
exceeds the product's current stock fails with an insufficient-stock
rejection carrying available = current stock and requested = the combined
quantity, and the cart's contents are unchanged (the lazily created cart
row aside, the returned state's cart_items table is the caller's). -/
theorem C9_addToCart_insufficient_stock (db : DB) (u : Nat) (req : AddToCartRequest)
    (p : Product) (hfp : findActiveProduct db req.productId = some p) :
    (∀ e, (GetOrCreateCart db u).1.cartItems.find?
        (fun ci => ci.cartId == (GetOrCreateCart db u).2.id &&
          ci.productId == req.productId) = some e →
      p.stock < e.quantity + req.quantity →
      AddToCart db u req = ((GetOrCreateCart db u).1,
        .error (.insufficientStock p.name p.stock (e.quantity + req.quantity)))) ∧
    ((GetOrCreateCart db u).1.cartItems.find?
        (fun ci => ci.cartId == (GetOrCreateCart db u).2.id &&
          ci.productId == req.productId) = none →
      p.stock < req.quantity →
      AddToCart db u req = ((GetOrCreateCart db u).1,
        .error (.insufficientStock p.name p.stock req.quantity))) ∧
    (GetOrCreateCart db u).1.cartItems = db.cartItems := by
  have hframe := GetOrCreateCart_frame db u
  rcases hg : GetOrCreateCart db u with ⟨db1, cart⟩
  rw [hg] at hframe
  have hfp1 : findActiveProduct db1 req.productId = some p := by
    unfold findActiveProduct
    rw [hframe.2.1]
    exact hfp
  refine ⟨?_, ?_, hframe.1⟩
  · intro e hfe hlt
    unfold AddToCart
    rw [hg]
    dsimp only at hfe ⊢
    rw [hfp1]
    dsimp only
    rw [hfe]
    dsimp only
    rw [if_pos hlt]
  · intro hfe hlt
    unfold AddToCart
    rw [hg]
    dsimp only at hfe ⊢
    rw [hfp1]
    dsimp only
    rw [hfe]
    dsimp only
    rw [if_pos hlt]

/-- Claim C9 witness: with stock 5 and an empty cart, requesting 10 units
of product 1 fails with available 5, requested 10, and the cart still has
no row for the product. -/
theorem C9_witness :
    (AddToCart sampleDB 1 ⟨1, 10⟩ = ((GetOrCreateCart sampleDB 1).1,
      .error (.insufficientStock "Widget" 5 10)) ∧
    (GetOrCreateCart sampleDB 1).1.cartItems = sampleDB.cartItems) ∧
    sampleDB.cartItems = [] :=
  ⟨⟨(C9_addToCart_insufficient_stock sampleDB 1 ⟨1, 10⟩
      ⟨1, "Widget", "", 10, 5, 1, "", true⟩ (by decide)).2.1 (by decide) (by decide),
    (C9_addToCart_insufficient_stock sampleDB 1 ⟨1, 10⟩
      ⟨1, "Widget", "", 10, 5, 1, "", true⟩ (by decide)).2.2⟩, rfl⟩

/-- The cart view's underlying rows: when every item of the cart joins to
a product, the view lists exactly the cart's cart_items rows. -/
theorem view_items_map {cartItems : List CartItem} {products : List Product} {cid : Nat}
    (hjoin : ∀ ci ∈ cartItems, ci.cartId = cid →
      (products.find? (fun p => p.id == ci.productId)).isSome) :
    (cartItems.filterMap (fun ci =>
      if ci.cartId == cid then
        (products.find? (fun p => p.id == ci.productId)).map
          (fun p => (⟨ci, p⟩ : CartViewItem))
      else none)).map (fun i => i.item) =
    cartItems.filter (fun ci => ci.cartId == cid) := by
  induction cartItems with
  | nil => rfl
  | cons ci rest ih =>
    have ih2 := ih (fun x hx h2 => hjoin x (List.mem_cons_of_mem _ hx) h2)
    rw [List.filterMap_cons, List.filter_cons]
    by_cases hcid : (ci.cartId == cid) = true
    · rcases Option.isSome_iff_exists.mp
        (hjoin ci (List.mem_cons_self _ _) (beq_iff_eq.mp hcid)) with ⟨p, hp2⟩
      simp only [hcid, if_true, hp2, Option.map_some']
      rw [List.map_cons, ih2]
    · rw [Bool.not_eq_true] at hcid
      simp only [hcid, Bool.false_eq_true, if_false]
      exact ih2

/-- Within one cart the view's products are pairwise distinct
(UNIQUE(cart_id, product_id)). -/
theorem nodup_filter_productIds {cartItems : List CartItem} {cid : Nat}
    (hnd : (cartItems.map (fun ci => (ci.cartId, ci.productId))).Nodup) :
    ((cartItems.filter (fun ci => ci.cartId == cid)).map
      (fun ci => ci.productId)).Nodup := by
  induction cartItems with
  | nil => simp
  | cons ci rest ih =>
    rw [List.map_cons, List.nodup_cons] at hnd
    obtain ⟨hn1, hn2⟩ := hnd
    rw [List.filter_cons]
    by_cases h : (ci.cartId == cid) = true
    · rw [if_pos h, List.map_cons, List.nodup_cons]
      refine ⟨?_, ih hn2⟩
      intro hmem
      rcases List.mem_map.mp hmem with ⟨ci2, hci2, hpe⟩
      have hci2r := List.mem_of_mem_filter hci2
      have hcart2 : ci2.cartId = cid := beq_iff_eq.mp (List.mem_filter.mp hci2).2
      apply hn1
      have h3 : (fun x : CartItem => (x.cartId, x.productId)) ci2 =
          (ci.cartId, ci.productId) := by
        rw [Prod.mk.injEq]
        exact ⟨by rw [hcart2, beq_iff_eq.mp h], hpe⟩
      exact h3 ▸ List.mem_map_of_mem _ hci2r
    · rw [if_neg (by simp [h])]
      exact ih hn2

/-- The cart view of a user with an existing cart. -/
theorem GetCart_eq {db : DB} {u : Nat} {c : Cart}
    (hgoc : GetOrCreateCart db u = (db, c)) :
    GetCart db u = (db, ⟨c.id, c.userId,
      db.cartItems.filterMap (fun ci => if ci.cartId == c.id then (db.products.find? (fun p => p.id == ci.productId)).map (fun p => (⟨ci, p⟩ : CartViewItem)) else none),
      ((db.cartItems.filterMap (fun ci => if ci.cartId == c.id then (db.products.find? (fun p => p.id == ci.productId)).map (fun p => (⟨ci, p⟩ : CartViewItem)) else none)).map (fun i => i.item.quantity)).sum,
      ((db.cartItems.filterMap (fun ci => if ci.cartId == c.id then (db.products.find? (fun p => p.id == ci.productId)).map (fun p => (⟨ci, p⟩ : CartViewItem)) else none)).map (fun i => i.product.price * i.item.quantity)).sum⟩) := by
  unfold GetCart
  rw [hgoc]

/-- Claim C7: CheckoutCart fails with the empty-cart rejection when the
cart view has no items; otherwise, through the same CreateOrder
validation/reservation path over exactly the cart's (product, quantity)
lines, it creates a pending order with one line per distinct cart product
priced at that product's price at checkout time; on success the cart is
left with zero items, and a failure of the cart-clearing step does not
undo the order. -/
theorem C7_checkout_spec (db : DB) (u : Nat) (addr pm : String)
    (hinv : DBInv db) (hu : u ∈ db.users) :
    ((GetCart db u).2.items = [] →
      ∀ ck, CheckoutCart db u addr pm ck = ((GetCart db u).1, .error .cartEmpty)) ∧
    (∀ c, c ∈ db.carts → c.userId = u →
      db.cartItems.filter (fun ci => ci.cartId == c.id) ≠ [] →
      (∀ ci ∈ db.cartItems, ci.cartId = c.id →
        (findActiveProduct db ci.productId).isSome) →
      (∀ ci ∈ db.cartItems, ci.cartId = c.id → ∀ p,
        findActiveProduct db ci.productId = some p → ci.quantity ≤ p.stock) →
      ∃ db2 o rows db3,
        CheckoutCart db u addr pm false = (db2, .ok (o, rows)) ∧
        CheckoutCart db u addr pm true = (db3, .ok (o, rows)) ∧
        o.status = "pending" ∧
        db3.cartItems.filter (fun ci => ci.cartId == c.id) = [] ∧
        db2.cartItems = db.cartItems ∧
        o ∈ db2.orders ∧ o ∈ db3.orders ∧
        rows.map (fun r => (r.productId, r.quantity)) =
          (db.cartItems.filter (fun ci => ci.cartId == c.id)).map
            (fun ci => (ci.productId, ci.quantity)) ∧
        (∀ r ∈ rows, r.price = priceOf db r.productId) ∧
        (rows.map (fun r => r.productId)).Nodup) := by
  obtain ⟨hp, ho, hoi, hca, hci⟩ := hinv
  constructor
  · intro hempty ck
    unfold CheckoutCart
    rcases hg : GetCart db u with ⟨db1, cart⟩
    rw [hg] at hempty
    dsimp only at hempty ⊢
    rw [hempty]
    rfl
  · intro c hc hcu hne hjact hjs
    have hgoc : GetOrCreateCart db u = (db, c) := GetOrCreateCart_found hca.1 hc hcu
    have hgc := GetCart_eq hgoc
    have hjoin : ∀ ci ∈ db.cartItems, ci.cartId = c.id →
        (db.products.find? (fun p2 => p2.id == ci.productId)).isSome := by
      intro ci hciM hcid
      rcases Option.isSome_iff_exists.mp (hjact ci hciM hcid) with ⟨p, hp2⟩
      obtain ⟨hpm, hpid, _⟩ := findActiveProduct_mem hp2
      rw [List.find?_isSome]
      exact ⟨p, hpm, by simp [hpid]⟩
    have hview := view_items_map hjoin
    have hitems : (db.cartItems.filterMap (fun ci => if ci.cartId == c.id then (db.products.find? (fun p => p.id == ci.productId)).map (fun p => (⟨ci, p⟩ : CartViewItem)) else none)).map (fun i => (⟨i.item.productId, i.item.quantity⟩ : CreateOrderItemRequest)) = (db.cartItems.filter (fun ci => ci.cartId == c.id)).map (fun ci => (⟨ci.productId, ci.quantity⟩ : CreateOrderItemRequest)) := by
      have h1 : (fun i : CartViewItem => (⟨i.item.productId, i.item.quantity⟩ : CreateOrderItemRequest)) = (fun ci : CartItem => (⟨ci.productId, ci.quantity⟩ : CreateOrderItemRequest)) ∘ (fun i : CartViewItem => i.item) := rfl
      rw [h1, ← List.map_map, hview]
    have hpids : (((db.cartItems.filter (fun ci => ci.cartId == c.id)).map (fun ci => (⟨ci.productId, ci.quantity⟩ : CreateOrderItemRequest))).map (fun it => it.productId)).Nodup := by
      have h1 : ((fun it : CreateOrderItemRequest => it.productId) ∘ (fun ci : CartItem => (⟨ci.productId, ci.quantity⟩ : CreateOrderItemRequest))) = (fun ci : CartItem => ci.productId) := rfl
      rw [List.map_map, h1]
      exact nodup_filter_productIds hci.1
    have hqL : ∀ it ∈ (db.cartItems.filter (fun ci => ci.cartId == c.id)).map (fun ci => (⟨ci.productId, ci.quantity⟩ : CreateOrderItemRequest)), 0 < it.quantity := by
      intro it hit
      rcases List.mem_map.mp hit with ⟨ci, hciL, rfl⟩
      exact (hci.2.2 ci (List.mem_of_mem_filter hciL)).1
    have hactL : ∀ it ∈ (db.cartItems.filter (fun ci => ci.cartId == c.id)).map (fun ci => (⟨ci.productId, ci.quantity⟩ : CreateOrderItemRequest)), (findActiveProduct db it.productId).isSome := by
      intro it hit
      rcases List.mem_map.mp hit with ⟨ci, hciL, rfl⟩
      exact hjact ci (List.mem_of_mem_filter hciL)
        (beq_iff_eq.mp (List.mem_filter.mp hciL).2)
    have hstockL : ∀ it ∈ (db.cartItems.filter (fun ci => ci.cartId == c.id)).map (fun ci => (⟨ci.productId, ci.quantity⟩ : CreateOrderItemRequest)), ∀ p, findActiveProduct db it.productId = some p → requestedTotal ((db.cartItems.filter (fun ci => ci.cartId == c.id)).map (fun ci => (⟨ci.productId, ci.quantity⟩ : CreateOrderItemRequest))) it.productId ≤ p.stock := by
      intro it hit p hp2
      rw [requestedTotal_of_nodup hpids hit]
      rcases List.mem_map.mp hit with ⟨ci, hciL, rfl⟩
      exact hjs ci (List.mem_of_mem_filter hciL)
        (beq_iff_eq.mp (List.mem_filter.mp hciL).2) p hp2
    have hqM : ∀ it ∈ (db.cartItems.filterMap (fun ci => if ci.cartId == c.id then (db.products.find? (fun p => p.id == ci.productId)).map (fun p => (⟨ci, p⟩ : CartViewItem)) else none)).map (fun i => (⟨i.item.productId, i.item.quantity⟩ : CreateOrderItemRequest)), 0 < it.quantity := by
      rw [hitems]; exact hqL
    have hactM : ∀ it ∈ (db.cartItems.filterMap (fun ci => if ci.cartId == c.id then (db.products.find? (fun p => p.id == ci.productId)).map (fun p => (⟨ci, p⟩ : CartViewItem)) else none)).map (fun i => (⟨i.item.productId, i.item.quantity⟩ : CreateOrderItemRequest)), (findActiveProduct db it.productId).isSome := by
      rw [hitems]; exact hactL
    have hstockM : ∀ it ∈ (db.cartItems.filterMap (fun ci => if ci.cartId == c.id then (db.products.find? (fun p => p.id == ci.productId)).map (fun p => (⟨ci, p⟩ : CartViewItem)) else none)).map (fun i => (⟨i.item.productId, i.item.quantity⟩ : CreateOrderItemRequest)), ∀ p, findActiveProduct db it.productId = some p → requestedTotal ((db.cartItems.filterMap (fun ci => if ci.cartId == c.id then (db.products.find? (fun p => p.id == ci.productId)).map (fun p => (⟨ci, p⟩ : CartViewItem)) else none)).map (fun i => (⟨i.item.productId, i.item.quantity⟩ : CreateOrderItemRequest))) it.productId ≤ p.stock := by
      rw [hitems]; exact hstockL
    rcases @CreateOrder_ok db u ⟨addr, pm, (db.cartItems.filterMap (fun ci => if ci.cartId == c.id then (db.products.find? (fun p => p.id == ci.productId)).map (fun p => (⟨ci, p⟩ : CartViewItem)) else none)).map (fun i => (⟨i.item.productId, i.item.quantity⟩ : CreateOrderItemRequest))⟩
      hp.1 hp.2 (fun o2 ho2 => (ho.2 o2 ho2).1) (fun oi hoi2 => (hoi oi hoi2).1)
      hu hqM hactM hstockM with ⟨rows, hco, hm⟩
    dsimp only at hco hm
    rw [hitems] at hm
    obtain ⟨db2, o, hco2, hcart_eq, hord_mem, hcarts_eq, hstat⟩ :
        ∃ db2 o, CreateOrder db u ⟨addr, pm, (db.cartItems.filterMap (fun ci => if ci.cartId == c.id then (db.products.find? (fun p => p.id == ci.productId)).map (fun p => (⟨ci, p⟩ : CartViewItem)) else none)).map (fun i => (⟨i.item.productId, i.item.quantity⟩ : CreateOrderItemRequest))⟩ = (db2, .ok (o, rows)) ∧
          db2.cartItems = db.cartItems ∧ o ∈ db2.orders ∧
          db2.carts = db.carts ∧ o.status = "pending" :=
      ⟨_, _, hco, rfl,
        List.mem_append_right db.orders (List.mem_singleton.mpr rfl), rfl, rfl⟩
    have hne2 : (db.cartItems.filterMap (fun ci => if ci.cartId == c.id then (db.products.find? (fun p => p.id == ci.productId)).map (fun p => (⟨ci, p⟩ : CartViewItem)) else none)) ≠ [] := by
      intro h0
      apply hne
      rw [← hview, h0]
      rfl
    have hie : (db.cartItems.filterMap (fun ci => if ci.cartId == c.id then (db.products.find? (fun p => p.id == ci.productId)).map (fun p => (⟨ci, p⟩ : CartViewItem)) else none)).isEmpty = false := by
      rcases hIT : (db.cartItems.filterMap (fun ci => if ci.cartId == c.id then (db.products.find? (fun p => p.id == ci.productId)).map (fun p => (⟨ci, p⟩ : CartViewItem)) else none)) with _ | ⟨a, l⟩
      · exact absurd hIT hne2
      · rw [hIT]
        rfl
    have hgoc2 : GetOrCreateCart db2 u = (db2, c) := by
      refine GetOrCreateCart_found ?_ ?_ hcu
      · rw [hcarts_eq]; exact hca.1
      · rw [hcarts_eq]; exact hc
    have hclear : ClearCart db2 u =
        { db2 with cartItems := db2.cartItems.filter (fun ci => !(ci.cartId == c.id)) } := by
      unfold ClearCart
      rw [hgoc2]
    have hck : ∀ ck : Bool, CheckoutCart db u addr pm ck =
        ((if ck then ClearCart db2 u else db2), .ok (o, rows)) := by
      intro ck
      unfold CheckoutCart
      rw [hgc]
      dsimp only
      rw [hie]
      simp only [Bool.false_eq_true, if_false]
      rw [hco2]
    refine ⟨db2, o, rows,
      { db2 with cartItems := db2.cartItems.filter (fun ci => !(ci.cartId == c.id)) },
      ?_, ?_, hstat, ?_, hcart_eq, hord_mem, hord_mem, ?_, ?_, ?_⟩
    · have h2 := hck false
      simpa using h2
    · have h2 := hck true
      rw [if_pos rfl, hclear] at h2
      exact h2
    · show (db2.cartItems.filter (fun ci => !(ci.cartId == c.id))).filter
        (fun ci => ci.cartId == c.id) = []
      rw [List.filter_filter, List.filter_eq_nil_iff]
      intro a _
      simp
    · have h2 := congrArg (List.map (fun t : Nat × Nat × Int × Int => (t.2.1, t.2.2.1))) hm
      rw [List.map_map, List.map_map] at h2
      have h3 : ((fun t : Nat × Nat × Int × Int => (t.2.1, t.2.2.1)) ∘
          (fun r : OrderItem => (r.orderId, r.productId, r.quantity, r.price))) =
          (fun r : OrderItem => (r.productId, r.quantity)) := rfl
      have h4 : ((fun t : Nat × Nat × Int × Int => (t.2.1, t.2.2.1)) ∘
          (fun it : CreateOrderItemRequest =>
            (db.nextOrderId, it.productId, it.quantity, priceOf db it.productId))) =
          (fun it : CreateOrderItemRequest => (it.productId, it.quantity)) := rfl
      rw [h3, h4] at h2
      rw [h2, List.map_map]
      rfl
    · intro r hr
      obtain ⟨_, it, _, hpid2, _, hpr2⟩ := tuple_map_mem hm hr
      rw [hpr2, hpid2]
    · have h2 := congrArg (List.map (fun t : Nat × Nat × Int × Int => t.2.1)) hm
      rw [List.map_map, List.map_map] at h2
      have h3 : ((fun t : Nat × Nat × Int × Int => t.2.1) ∘
          (fun r : OrderItem => (r.orderId, r.productId, r.quantity, r.price))) =
          (fun r : OrderItem => r.productId) := rfl
      have h4 : ((fun t : Nat × Nat × Int × Int => t.2.1) ∘
          (fun it : CreateOrderItemRequest =>
            (db.nextOrderId, it.productId, it.quantity, priceOf db it.productId))) =
          (fun it : CreateOrderItemRequest => it.productId) := rfl
      rw [h3, h4] at h2
      rw [h2]
      exact hpids

/-- Claim C7 witness: checking out the cart holding 2 Widgets succeeds,
leaves the cart empty (unless the clear step's storage fails, which still
returns the created order), and produces one pending-order line priced at
the checkout-time price. -/
theorem C7_witness :
    ∃ db2 o rows db3,
      CheckoutCart sampleCartDB 1 "a" "cash" false = (db2, .ok (o, rows)) ∧
      CheckoutCart sampleCartDB 1 "a" "cash" true = (db3, .ok (o, rows)) ∧
      o.status = "pending" ∧
      db3.cartItems.filter (fun ci => ci.cartId == (⟨1, 1⟩ : Cart).id) = [] ∧
      db2.cartItems = sampleCartDB.cartItems ∧
      o ∈ db2.orders ∧ o ∈ db3.orders ∧
      rows.map (fun r => (r.productId, r.quantity)) =
        (sampleCartDB.cartItems.filter
          (fun ci => ci.cartId == (⟨1, 1⟩ : Cart).id)).map
          (fun ci => (ci.productId, ci.quantity)) ∧
      (∀ r ∈ rows, r.price = priceOf sampleCartDB r.productId) ∧
      (rows.map (fun r => r.productId)).Nodup :=
  (C7_checkout_spec sampleCartDB 1 "a" "cash" (by decide) (by decide)).2
    ⟨1, 1⟩ (by decide) rfl (by decide) (by decide) (by decide)

end ECom
